import Mathlib

/-!
Verification of the evomata11 per-tick simulation engine (`src/grid.rs`)
against its natural-language specification.

The grid, hex topology, decision gathering, delta application, diffusion
scheduling and metabolism/death logic are translated from `src/grid.rs`.
The organism (`Cell`, `Decision`, `Direction::delta`, `Direction::flip`)
and fluid (`Solution::diffuse_from`, `Solution::end_cycle`, the kill-fluid
thresholds, `NORMAL_DIFFUSION`) capabilities live in `cell.rs` / `fluid.rs`,
which are not part of the shown source; those are modelled from the spec
(sections 3, 4.1 and 6) and are marked as such.

Fluid scalars (`f64` in the source) are modelled as rationals.
-/

namespace Evomata

/-! ## Directions (cell.rs is missing; the variant list is taken from the
spec §4.1 and the comments in `Grid::hex_and_neighbors`). -/

/-- Modelled from the spec: the `Direction` enum from `cell.rs` (missing from
the shown source). Spec §4.1: "a direction (one of UpRight, UpLeft, Left,
DownLeft, DownRight, Right)". -/
inductive Direction where
  | UpRight
  | UpLeft
  | Left
  | DownLeft
  | DownRight
  | Right
deriving DecidableEq

/-- Modelled from the spec: `Direction::delta` from `cell.rs` (missing from
the shown source). Spec §4.1: "the neighbor deltas depend on whether y is
even or odd (two parity-specific delta tables)"; the tables themselves are
fixed by the direction-labelled neighbor tables of `Grid::hex_and_neighbors`
in `src/grid.rs` (lines 121-154). -/
def Direction.delta (d : Direction) (even : Bool) : Int × Int :=
  if even then
    match d with
    | .UpRight => (1, -1)
    | .UpLeft => (0, -1)
    | .Left => (-1, 0)
    | .DownLeft => (0, 1)
    | .DownRight => (1, 1)
    | .Right => (1, 0)
  else
    match d with
    | .UpRight => (0, -1)
    | .UpLeft => (-1, -1)
    | .Left => (-1, 0)
    | .DownLeft => (-1, 1)
    | .DownRight => (0, 1)
    | .Right => (1, 0)

/-- Modelled from the spec: `Direction::flip` from `cell.rs` (missing from
the shown source). Spec §4.1: the canonical order is such that
"opposite-direction lookups are index+3 mod 6"; flipping exchanges
UpRight↔DownLeft, UpLeft↔DownRight, Left↔Right. -/
def Direction.flip (d : Direction) : Direction :=
  match d with
  | .UpRight => .DownLeft
  | .UpLeft => .DownRight
  | .Left => .Right
  | .DownLeft => .UpRight
  | .DownRight => .UpLeft
  | .Right => .Left

/-- `in_direction` from `src/grid.rs` lines 534-543: wrapped coordinate of
the neighbor of `(x, y)` in a given direction, on a `width × height` torus.
The source computes `((width + x) as isize + diff.0) as usize % width` (and
similarly for y). -/
def in_direction (x y width height : Nat) (direction : Direction) :
    Nat × Nat :=
  let diff := direction.delta (y % 2 == 0)
  ((((width + x : Nat) : Int) + diff.1).toNat % width,
   (((height + y : Nat) : Int) + diff.2).toNat % height)

/-- The canonical 6-neighbor list of `Grid::hex_and_neighbors`
(`src/grid.rs` lines 121-154): index order UpRight, UpLeft, Left, DownLeft,
DownRight, Right, with parity-dependent tables and modular wraparound. -/
def neighborCoord (w h x y : Nat) (i : Fin 6) : Nat × Nat :=
  if y % 2 = 0 then
    match i with
    | ⟨0, _⟩ => ((x + w + 1) % w, (y + h - 1) % h)
    | ⟨1, _⟩ => (x, (y + h - 1) % h)
    | ⟨2, _⟩ => ((x + w - 1) % w, y)
    | ⟨3, _⟩ => (x, (y + h + 1) % h)
    | ⟨4, _⟩ => ((x + w + 1) % w, (y + h + 1) % h)
    | ⟨5, _⟩ => ((x + w + 1) % w, y)
    | ⟨n + 6, hn⟩ => absurd hn (by omega)
  else
    match i with
    | ⟨0, _⟩ => (x, (y + h - 1) % h)
    | ⟨1, _⟩ => ((x + w - 1) % w, (y + h - 1) % h)
    | ⟨2, _⟩ => ((x + w - 1) % w, y)
    | ⟨3, _⟩ => ((x + w - 1) % w, (y + h + 1) % h)
    | ⟨4, _⟩ => (x, (y + h + 1) % h)
    | ⟨5, _⟩ => ((x + w + 1) % w, y)
    | ⟨n + 6, hn⟩ => absurd hn (by omega)

/-- Opposite direction index: "opposite-direction lookups are index+3 mod 6"
(spec §4.1; used at `src/grid.rs` line 426). -/
def oppositeIdx (i : Fin 6) : Fin 6 := ⟨(i.val + 3) % 6, by omega⟩

/-! ## Data model (`src/grid.rs` lines 15-76; `Cell` and `Solution`
internals are modelled from the spec since `cell.rs`/`fluid.rs` are not in
the shown source). -/

/-- Modelled from the spec: the organism (`Cell` from `cell.rs`, missing
from the shown source).  Spec §3: "Carries at minimum an inhale/energy
counter and a suicide flag; full decision/reproduction behavior is
external" — the external genetic state is abstracted as an opaque `genome`
payload. -/
structure Cell where
  inhale : Nat
  suicide : Bool
  genome : Nat
deriving DecidableEq

/-- Modelled from the spec: the fluid `Solution` from `fluid.rs` (missing
from the shown source), restricted to the state `grid.rs` accesses
directly: "8 scalar fluid channels ... plus 6 diffusion coefficients"
(spec §3), and the pending-delta accumulation buffer written by
`this.solution.diffuse[2] += ...` (`src/grid.rs` line 297).  The diffusion
numerics (`diffuse_from`/`end_cycle`) stay opaque (fields of `Ext`). -/
structure Solution where
  fluids : Fin 8 → Rat
  coefficients : Fin 6 → Rat
  diffuse : Fin 8 → Rat

/-- Modelled from the spec: the `Choice` sum type from `cell.rs` (missing
from the shown source); spec §3: "one of {Move(direction),
Divide(mate-direction, spawn-direction), Explode(sign), Suicide}". -/
inductive Choice where
  | Move (direction : Direction)
  | Divide (mate spawn : Direction)
  | Explode (way : Bool)
  | Suicide
deriving DecidableEq

/-- Modelled from the spec: `Decision` from `cell.rs` (missing from the
shown source): the chosen action together with the per-direction diffusion
coefficients consumed at `src/grid.rs` line 244. -/
structure Decision where
  choice : Choice
  coefficients : Fin 6 → Rat

/-- `Mate` from `src/grid.rs` lines 15-19. -/
structure Mate where
  mate : Nat × Nat
  source : Nat × Nat
deriving DecidableEq

/-- `Delta` from `src/grid.rs` lines 21-25. -/
structure Delta where
  movement_attempts : List (Nat × Nat)
  mate_attempts : List Mate
deriving DecidableEq

/-- `Hex` from `src/grid.rs` lines 27-33. -/
structure Hex where
  solution : Solution
  cell : Option Cell
  decision : Option Decision
  delta : Delta

/-- `Grid` from `src/grid.rs` lines 61-76. -/
structure Grid where
  spawning : Bool
  width : Nat
  height : Nat
  consumption : Rat
  spawn_rate : Rat
  inhale_minimum : Nat
  inhale_cap : Nat
  movement_cost : Nat
  divide_cost : Nat
  explode_requirement : Nat
  death_release_coefficient : Rat
  explode_amount : Rat
  tiles : List Hex

/-- The two diffusion regimes (`fluid.rs`, missing from the shown source;
spec §6: `regime: {FlatSignals|DynSignals}`). -/
inductive DiffusionType where
  | FlatSignals
  | DynSignals
deriving DecidableEq

/-- Modelled from the spec: the external capability set of §6 (organism
decide/divide/mate and `Cell::new`, the RNG draws used by
`Grid::cycle_spawn`, the fluid `diffuse_from`/`end_cycle` contract) plus
the constants `KILL_FLUID_UPPER_THRESHOLD`, `KILL_FLUID_LOWER_THRESHOLD`
and `NORMAL_DIFFUSION` from `fluid.rs` (missing from the shown source).
`R` is the (opaque, deterministically threaded) RNG state. -/
structure Ext (R : Type) where
  decide : Cell → (Fin 7 → (Fin 8 → Rat)) → (Fin 6 → Bool) → Decision
  newCell : R → Cell × R
  divide : Cell → R → Cell × R
  mate : Cell → Cell → R → Cell × R
  genRange : Nat → R → Nat × R
  nextF64 : R → Rat × R
  diffuse_from : Solution → Solution → DiffusionType → Nat → Solution
  end_cycle : Solution → Solution
  killUpper : Rat
  killLower : Rat
  normalDiffusion : Rat

instance : Inhabited Solution :=
  ⟨{ fluids := fun _ => 0, coefficients := fun _ => 0, diffuse := fun _ => 0 }⟩

instance : Inhabited Hex :=
  ⟨{ solution := default, cell := none, decision := none,
     delta := { movement_attempts := [], mate_attempts := [] } }⟩

instance : DecidableEq Solution := fun a b =>
  decidable_of_iff
    (a.fluids = b.fluids ∧ a.coefficients = b.coefficients ∧
      a.diffuse = b.diffuse)
    (by cases a; cases b; simp)

instance : DecidableEq Decision := fun a b =>
  decidable_of_iff (a.choice = b.choice ∧ a.coefficients = b.coefficients)
    (by cases a; cases b; simp)

instance : DecidableEq Hex := fun a b =>
  decidable_of_iff
    (a.solution = b.solution ∧ a.cell = b.cell ∧ a.decision = b.decision ∧
      a.delta = b.delta)
    (by cases a; cases b; simp)

instance : DecidableEq Grid := fun a b =>
  decidable_of_iff
    (a.spawning = b.spawning ∧ a.width = b.width ∧ a.height = b.height ∧
      a.consumption = b.consumption ∧ a.spawn_rate = b.spawn_rate ∧
      a.inhale_minimum = b.inhale_minimum ∧ a.inhale_cap = b.inhale_cap ∧
      a.movement_cost = b.movement_cost ∧ a.divide_cost = b.divide_cost ∧
      a.explode_requirement = b.explode_requirement ∧
      a.death_release_coefficient = b.death_release_coefficient ∧
      a.explode_amount = b.explode_amount ∧ a.tiles = b.tiles)
    (by cases a; cases b; simp)

/-- `Grid::hex` (`src/grid.rs` lines 113-115): flat row-major storage,
index `x + y * width`. -/
def hex (g : Grid) (x y : Nat) : Hex := g.tiles.getD (x + y * g.width) default

/-- Writing one tile of the flat store (the effect of `Grid::hex_mut`,
`src/grid.rs` lines 117-119). -/
def setHex (g : Grid) (x y : Nat) (t : Hex) : Grid :=
  { g with tiles := g.tiles.set (x + y * g.width) t }

/-- Overwrite a tile's occupant only. -/
def setCell (g : Grid) (x y : Nat) (c : Option Cell) : Grid :=
  setHex g x y { hex g x y with cell := c }

/-- Overwrite a tile's pending decision only. -/
def setDecision (g : Grid) (x y : Nat) (d : Option Decision) : Grid :=
  setHex g x y { hex g x y with decision := d }

/-- The facing directions zipped with the neighbor list in
`Grid::cycle_decisions` (`src/grid.rs` lines 253-258):
`[DownLeft, DownRight, Right, UpRight, UpLeft, Left]`. -/
def facingAt (i : Fin 6) : Direction :=
  match i with
  | ⟨0, _⟩ => .DownLeft
  | ⟨1, _⟩ => .DownRight
  | ⟨2, _⟩ => .Right
  | ⟨3, _⟩ => .UpRight
  | ⟨4, _⟩ => .UpLeft
  | ⟨5, _⟩ => .Left
  | ⟨n + 6, hn⟩ => absurd hn (by omega)

/-- The neighbor indices 0..5, in iteration order. -/
def finRange6 : List (Fin 6) := [0, 1, 2, 3, 4, 5]

/-! ## Decision phase (`Grid::cycle_cells`, `src/grid.rs` lines 188-223). -/

/-- Per-tile body of the decision phase: an occupied tile gets
`Some(decide(own fluids, 6 neighbor fluids, 6 occupancy flags))`, an
unoccupied tile gets `None`. -/
def decideTile {R : Type} (E : Ext R) (g : Grid) (x y : Nat) : Hex :=
  let t := hex g x y
  let nb : Fin 6 → Hex := fun i =>
    hex g (neighborCoord g.width g.height x y i).1
      (neighborCoord g.width g.height x y i).2
  { t with decision :=
      match t.cell with
      | some c =>
        some (E.decide c
          (fun j =>
            match j with
            | ⟨0, _⟩ => t.solution.fluids
            | ⟨k + 1, hk⟩ => (nb ⟨k, by omega⟩).solution.fluids)
          (fun i => (nb i).cell.isSome))
      | none => none }

/-! ## Delta-resolution gather step (`Grid::cycle_decisions`,
`src/grid.rs` lines 232-318). -/

/-- The neighbor scan of the gather step: for each neighbor index (with its
facing direction), record movement/mate attempts (early exit at 2), and run
the Explode/Suicide arms exactly as written in the source — including the
fact that those arms test `this.cell` (the scanning tile's own occupant). -/
def gatherLoop (g : Grid) (x y : Nat) : List (Fin 6) → Hex → Hex
  | [], t => t
  | i :: rest, t =>
    let nbc := neighborCoord g.width g.height x y i
    let n := hex g nbc.1 nbc.2
    let facing := facingAt i
    match n.decision with
    | some dec =>
      match dec.choice with
      | .Move direction =>
        if facing = direction then
          let t1 := { t with delta := { t.delta with movement_attempts :=
            t.delta.movement_attempts ++
              [in_direction x y g.width g.height facing.flip] } }
          if t1.delta.movement_attempts.length = 2 then t1
          else gatherLoop g x y rest t1
        else gatherLoop g x y rest t
      | .Divide mateDir spawn =>
        if facing = spawn then
          let source := in_direction x y g.width g.height facing.flip
          let t1 := { t with delta := { t.delta with mate_attempts :=
            t.delta.mate_attempts ++
              [{ mate := in_direction source.1 source.2 g.width g.height
                   mateDir,
                 source := source }] } }
          if t1.delta.mate_attempts.length = 2 then t1
          else gatherLoop g x y rest t1
        else gatherLoop g x y rest t
      | .Explode way =>
        match t.cell with
        | some c =>
          if c.inhale ≥ g.explode_requirement then
            gatherLoop g x y rest { t with solution := { t.solution with
              diffuse := Function.update t.solution.diffuse 2
                (t.solution.diffuse 2 +
                  (if way then g.explode_amount else -g.explode_amount)) } }
          else gatherLoop g x y rest t
        | none => gatherLoop g x y rest t
      | .Suicide =>
        match t.cell with
        | some c =>
          gatherLoop g x y rest { t with cell := some { c with suicide := true } }
        | none => gatherLoop g x y rest t
    | none => gatherLoop g x y rest t

/-- Per-tile body of the gather step (`src/grid.rs` lines 239-313): clear
the delta scratch, set the diffusion coefficients from the tile's own
decision (or the uniform normal default), and — only if no cell is present
(`src/grid.rs` line 251) — scan the 6 neighbors. -/
def gatherTile {R : Type} (E : Ext R) (g : Grid) (x y : Nat) : Hex :=
  let t := hex g x y
  let t1 := { t with
    delta := { movement_attempts := [], mate_attempts := [] },
    solution := { t.solution with coefficients :=
      match t.decision with
      | some dec => dec.coefficients
      | none => fun _ => E.normalDiffusion } }
  if t1.cell = none then gatherLoop g x y finRange6 t1 else t1

/-! ## Delta-resolution apply step (`Grid::cycle_decisions`,
`src/grid.rs` lines 320-402).  Sequential; `none` models an `unwrap()`
panic on an absent organism. -/

/-- Processing of one tile in the sequential apply pass, in source order:
movement (exactly 1 attempt), else mating (exactly 1 attempt; self-division
when the mate coordinate is the tile itself, mating when the mate tile is
occupied, nothing otherwise), else no outcome; finally the tile's decision
is cleared. -/
def applyStepAction {R : Type} (E : Ext R) (g : Grid) (rng : R) (x y : Nat) :
    Option (Grid × R) :=
  let t := hex g x y
    if t.delta.movement_attempts.length = 1 then
      let from_coord := t.delta.movement_attempts.getD 0 (0, 0)
      let taken := (hex g from_coord.1 from_coord.2).cell
      let g1 := setCell g from_coord.1 from_coord.2 none
      let g2 := setCell g1 x y taken
      match (hex g2 x y).cell with
      | none => none
      | some c =>
        if c.inhale ≥ g.movement_cost then
          some (setCell g2 x y (some { c with inhale := c.inhale - g.movement_cost }), rng)
        else
          some (setCell g2 x y (some { c with inhale := 0 }), rng)
    else if t.delta.mate_attempts.length = 1 then
      let m := t.delta.mate_attempts.getD 0 { mate := (0, 0), source := (0, 0) }
      if m.mate = (x, y) then
        match (hex g m.source.1 m.source.2).cell with
        | none => none
        | some sc =>
          let sc1 :=
            if sc.inhale ≥ g.movement_cost + g.divide_cost then
              { sc with inhale := sc.inhale - (g.movement_cost + g.divide_cost) }
            else { sc with inhale := 0 }
          let g1 := setCell g m.source.1 m.source.2 (some sc1)
          let dr := E.divide sc1 rng
          some (setCell g1 x y (some dr.1), dr.2)
      else
        if (hex g m.mate.1 m.mate.2).cell.isSome then
          match (hex g m.source.1 m.source.2).cell with
          | none => none
          | some sc =>
            let sc1 :=
              if sc.inhale ≥ g.movement_cost + g.divide_cost then
                { sc with inhale := sc.inhale - (g.movement_cost + g.divide_cost) }
              else { sc with inhale := 0 }
            let g1 := setCell g m.source.1 m.source.2 (some sc1)
            match (hex g1 m.mate.1 m.mate.2).cell with
            | none => none
            | some mc =>
              let mr := E.mate sc1 mc rng
              some (setCell g1 x y (some mr.1), mr.2)
        else
          some (setCell g x y none, rng)
    else some (g, rng)

/-- Processing of one tile in the sequential apply pass: the
movement/mating action followed by clearing the tile's decision
(`src/grid.rs` line 400). -/
def applyStep {R : Type} (E : Ext R) (g : Grid) (rng : R) (x y : Nat) :
    Option (Grid × R) :=
  match applyStepAction E g rng x y with
  | none => none
  | some gr => some (setDecision gr.1 x y none, gr.2)

/-- The sequential traversal order of the apply pass:
`for x in 0..width { for y in 0..height { ... } }`. -/
def applyOrder (w h : Nat) : List (Nat × Nat) :=
  (List.range w).flatMap (fun x => (List.range h).map (fun y => (x, y)))

/-- The sequential apply pass over all tiles. -/
def applyPass {R : Type} (E : Ext R) (g : Grid) (rng : R) :
    Option (Grid × R) :=
  (applyOrder g.width g.height).foldl
    (fun acc p =>
      match acc with
      | none => none
      | some gr => applyStep E gr.1 gr.2 p.1 p.2)
    (some (g, rng))

/-! ## Diffusion phase (`Grid::cycle_fluids`, `src/grid.rs`
lines 405-447). -/

/-- Per-tile body of the diffusion accumulate sub-pass: fold
`diffuse_from` over the 6 neighbors, regime by the neighbor's occupancy,
coefficient index `(i + 3) % 6`. -/
def diffuseTile {R : Type} (E : Ext R) (g : Grid) (x y : Nat) : Hex :=
  let t := hex g x y
  let s1 := finRange6.foldl
    (fun s i =>
      let nbc := neighborCoord g.width g.height x y i
      let n := hex g nbc.1 nbc.2
      E.diffuse_from s n.solution
        (match n.cell with
         | some _ => .FlatSignals
         | none => .DynSignals)
        ((i.val + 3) % 6))
    t.solution
  { t with solution := s1 }

/-- Per-tile body of the diffusion commit sub-pass (`end_cycle`). -/
def endCycleTile {R : Type} (E : Ext R) (g : Grid) (x y : Nat) : Hex :=
  let t := hex g x y
  { t with solution := E.end_cycle t.solution }

/-! ## Metabolism/death phase (`Grid::cycle_death`, `src/grid.rs`
lines 449-504). -/

/-- Per-tile body of the metabolism/death phase, translated branch by
branch from `src/grid.rs` lines 464-498. -/
def deathTile {R : Type} (E : Ext R) (g : Grid) (x y : Nat) : Hex :=
  let t := hex g x y
  match t.cell with
  | none => t
  | some c =>
    if c.suicide = true ∨ t.solution.fluids 3 > E.killUpper ∨
        t.solution.fluids 3 < E.killLower ∨ c.inhale < g.inhale_minimum then
      let release := g.death_release_coefficient * g.consumption * (c.inhale : Rat)
      let f1 := Function.update t.solution.fluids 0 (t.solution.fluids 0 + release)
      { t with solution := { t.solution with fluids := f1 }, cell := none }
    else if t.solution.fluids 0 ≤ g.consumption then
      if c.inhale ≠ 0 then { t with cell := some { c with inhale := c.inhale - 1 } }
      else { t with cell := none }
    else
      let f1 := Function.update t.solution.fluids 0 (t.solution.fluids 0 - g.consumption)
      let t1 := { t with solution := { t.solution with fluids := f1 } }
      if t1.solution.fluids 0 < 0 then
        if c.inhale ≠ 0 then { t1 with cell := some { c with inhale := c.inhale - 1 } }
        else
          let release := g.death_release_coefficient * g.consumption * (c.inhale : Rat)
          let f2 := Function.update t1.solution.fluids 0 (t1.solution.fluids 0 + release)
          { t1 with solution := { t1.solution with fluids := f2 }, cell := none }
      else
        if c.inhale < g.inhale_cap then
          { t1 with cell := some { c with inhale := c.inhale + 1 } }
        else t1

/-! ## Row-sharded parallel execution.  Each parallel phase of the source
partitions rows into `numcpus` contiguous ranges
(`(height * i / numcpus)..(height * (i + 1) / numcpus)`), each worker
writing only its own tiles, each per-tile result a function of the
phase-start snapshot (workers read only fields the phase does not write).
The sharded execution is therefore modelled as a fold that writes
`f snapshot x y` at every sharded position. -/

/-- The positions of worker `i` of `n`:
`for x in 0..w { for y in (h*i/n)..(h*(i+1)/n) { ... } }`. -/
def shardPositions (w h n i : Nat) : List (Nat × Nat) :=
  (List.range w).flatMap (fun x =>
    (List.range (h * (i + 1) / n - h * i / n)).map (fun k => (x, h * i / n + k)))

/-- Run one parallel phase with `n` workers: write `f g x y` (computed from
the phase-start snapshot `g`) at every position of every shard. -/
def runShards (n : Nat) (g : Grid) (f : Grid → Nat → Nat → Hex) : Grid :=
  let ps := (List.range n).flatMap (fun i => shardPositions g.width g.height n i)
  let ts := ps.foldl (fun ts p => ts.set (p.1 + p.2 * g.width) (f g p.1 p.2)) g.tiles
  { g with tiles := ts }

/-- The canonical (shard-count independent) result of a parallel phase:
tile `j` holds `f g (j % width) (j / width)`. -/
def mapTiles (g : Grid) (f : Grid → Nat → Nat → Hex) : Grid :=
  let ts := (List.range (g.width * g.height)).map (fun j => f g (j % g.width) (j / g.width))
  { g with tiles := ts }

/-! ## Spawn (`Grid::cycle_spawn`, `src/grid.rs` lines 170-186) and the
full tick (`Grid::cycle`, lines 156-168). -/

/-- One spawn draw: pick a flat tile index below `width * height`; if that
tile is empty, place `Cell::new(rng)` there (the RNG advances for the cell
draw only in that case). -/
def spawnOnce {R : Type} (E : Ext R) (gr : Grid × R) : Grid × R :=
  let g := gr.1
  let tr := E.genRange (g.width * g.height) gr.2
  let tile := tr.1
  if (g.tiles.getD tile default).cell = none then
    let cr := E.newCell tr.2
    let t1 := { g.tiles.getD tile default with cell := some cr.1 }
    ({ g with tiles := g.tiles.set tile t1 }, cr.2)
  else (g, tr.2)

/-- `Grid::cycle_spawn`: `spawn_rate as usize` draws when the rate is at
least 1, otherwise one draw with probability `spawn_rate`. -/
def cycle_spawn {R : Type} (E : Ext R) (g : Grid) (rng : R) : Grid × R :=
  if g.spawn_rate ≥ 1 then
    (List.range (Rat.floor g.spawn_rate).toNat).foldl
      (fun gr _ => spawnOnce E gr) (g, rng)
  else
    let vr := E.nextF64 rng
    if vr.1 < g.spawn_rate then spawnOnce E (g, vr.2) else (g, vr.2)

/-- `Grid::cycle_cells` with `n` workers. -/
def cycle_cells {R : Type} (n : Nat) (E : Ext R) (g : Grid) : Grid :=
  runShards n g (decideTile E)

/-- The parallel gather step of `Grid::cycle_decisions` with `n` workers. -/
def gatherPhase {R : Type} (n : Nat) (E : Ext R) (g : Grid) : Grid :=
  runShards n g (gatherTile E)

/-- `Grid::cycle_decisions`: parallel gather, then the sequential apply
pass. -/
def cycle_decisions {R : Type} (n : Nat) (E : Ext R) (g : Grid) (rng : R) :
    Option (Grid × R) :=
  applyPass E (gatherPhase n E g) rng

/-- `Grid::cycle_fluids`: parallel accumulate sub-pass, barrier, parallel
commit sub-pass. -/
def cycle_fluids {R : Type} (n : Nat) (E : Ext R) (g : Grid) : Grid :=
  runShards n (runShards n g (diffuseTile E)) (endCycleTile E)

/-- `Grid::cycle_death` with `n` workers. -/
def cycle_death {R : Type} (n : Nat) (E : Ext R) (g : Grid) : Grid :=
  runShards n g (deathTile E)

/-- One full tick (`Grid::cycle`): Spawn (if enabled) → Decide →
Resolve Deltas → Diffuse → Metabolize/Die.  `none` propagates an
apply-pass panic. -/
def cycle {R : Type} (n : Nat) (E : Ext R) (g : Grid) (rng : R) :
    Option (Grid × R) :=
  let sr := if g.spawning then cycle_spawn E g rng else (g, rng)
  let g1 := cycle_cells n E sr.1
  match cycle_decisions n E g1 sr.2 with
  | none => none
  | some gr2 =>
    let g3 := cycle_fluids n E gr2.1
    let g4 := cycle_death n E g3
    some (g4, gr2.2)

/-- `N` ticks in sequence. -/
def runTicks {R : Type} (n : Nat) (E : Ext R) (N : Nat) (g : Grid) (rng : R) :
    Option (Grid × R) :=
  match N with
  | 0 => some (g, rng)
  | Nat.succ N1 =>
    match cycle n E g rng with
    | none => none
    | some gr => runTicks n E N1 gr.1 gr.2

/-- Well-formedness: "tile count == width×height at all times" and both
dimensions ≥ 1 (spec §3). -/
def WfGrid (g : Grid) : Prop :=
  g.tiles.length = g.width * g.height ∧ 1 ≤ g.width ∧ 1 ≤ g.height

instance (g : Grid) : Decidable (WfGrid g) :=
  inferInstanceAs (Decidable (_ ∧ _ ∧ _))

/-- The Diffusion phase as the spec words it (§4.4, claim C8), for
comparison with the translated `cycle_fluids`: a first full-grid pass in
which every tile invokes `diffuse_from` against each of its 6 neighbors —
the FlatSignals regime exactly when that neighbor is occupied and the
DynSignals regime exactly when it is not, with coefficient index
`(i + 3) % 6` — followed, only after all accumulation, by a second
full-grid pass committing each tile via `end_cycle`. -/
def cycle_fluids_spec {R : Type} (E : Ext R) (g : Grid) : Grid :=
  let accumulated := mapTiles g (fun g x y =>
    let t := hex g x y
    let s1 := finRange6.foldl
      (fun s i =>
        let nbc := neighborCoord g.width g.height x y i
        let n := hex g nbc.1 nbc.2
        E.diffuse_from s n.solution
          (if n.cell.isSome then DiffusionType.FlatSignals
           else DiffusionType.DynSignals)
          ((i.val + 3) % 6))
      t.solution
    { t with solution := s1 })
  mapTiles accumulated (fun g1 x y =>
    let t := hex g1 x y
    { t with solution := E.end_cycle t.solution })

/-! ## Concrete test fixtures (inputs for witnesses and counterexamples). -/

/-- Fixture: a concrete external capability set over a unit RNG state. -/
def unitExt : Ext Unit where
  decide := fun _ _ _ => { choice := Choice.Suicide, coefficients := fun _ => 0 }
  newCell := fun r => ({ inhale := 0, suicide := false, genome := 0 }, r)
  divide := fun c r => ({ c with genome := c.genome + 1 }, r)
  mate := fun a b r =>
    ({ inhale := a.inhale, suicide := false, genome := a.genome + b.genome }, r)
  genRange := fun _ r => (0, r)
  nextF64 := fun r => (0, r)
  diffuse_from := fun s _ _ _ => s
  end_cycle := fun s => s
  killUpper := 1
  killLower := -1
  normalDiffusion := 1

/-- Fixture: an empty tile. -/
def hexEmpty : Hex := default

/-- Fixture: a tile with a given occupant and pending decision. -/
def hexWith (c : Option Cell) (d : Option Decision) : Hex :=
  { hexEmpty with cell := c, decision := d }

/-- Fixture: an empty tile with recorded movement attempts. -/
def hexMov (l : List (Nat × Nat)) : Hex :=
  { hexEmpty with delta := { movement_attempts := l, mate_attempts := [] } }

/-- Fixture: an empty tile with recorded mate attempts. -/
def hexMate (l : List Mate) : Hex :=
  { hexEmpty with delta := { movement_attempts := [], mate_attempts := l } }

/-- Fixture: a 2×2 grid with fixed parameters around a given tile list. -/
def mkGrid (ts : List Hex) : Grid where
  spawning := false
  width := 2
  height := 2
  consumption := 1
  spawn_rate := 0
  inhale_minimum := 1
  inhale_cap := 10
  movement_cost := 2
  divide_cost := 3
  explode_requirement := 0
  death_release_coefficient := 2
  explode_amount := 5
  tiles := ts

/-- Fixture organisms. -/
def cellA : Cell := { inhale := 5, suicide := false, genome := 7 }

/-- Fixture organisms. -/
def cellB : Cell := { inhale := 4, suicide := false, genome := 8 }

/-- Fixture: an organism already flagged for suicide. -/
def cellDead : Cell := { inhale := 3, suicide := true, genome := 2 }

/-- Fixture: a pending Suicide decision. -/
def decSuicideFix : Decision := { choice := Choice.Suicide, coefficients := fun _ => 0 }

/-- Fixture: a pending Explode(+) decision. -/
def decExplodeFix : Decision := { choice := Choice.Explode true, coefficients := fun _ => 0 }

/-- Fixture grid for C2: organisms at (1,0) and (0,1) with pending Suicide
and Explode decisions, empty tiles at (0,0) and (1,1). -/
def gC2 : Grid := mkGrid [hexEmpty, hexWith (some cellA) (some decSuicideFix),
  hexWith (some cellB) (some decExplodeFix), hexEmpty]

/-- Fixture grid for C3: one gathered movement attempt into (0,0) from the
occupied tile (1,0). -/
def gC3 : Grid := mkGrid [hexMov [(1, 0)], hexWith (some cellA) none,
  hexEmpty, hexEmpty]

/-- Fixture grid for C4: two gathered movement attempts into (0,0). -/
def gC4 : Grid := mkGrid [hexMov [(1, 0), (0, 1)], hexWith (some cellA) none,
  hexWith (some cellB) none, hexEmpty]

/-- Fixture grid for C5: one gathered self-division attempt into (0,0) from
the occupied tile (1,0). -/
def gC5 : Grid := mkGrid [hexMate [{ mate := (0, 0), source := (1, 0) }],
  hexWith (some cellA) none, hexEmpty, hexEmpty]

/-- Fixture grid for C6: a suicide-flagged organism at (0,0). -/
def gC6 : Grid := mkGrid [hexWith (some cellDead) none, hexEmpty, hexEmpty,
  hexEmpty]

/-- Fixture grid for C7: a healthy organism at (0,0) on a tile whose food
channel (0) is below the consumption rate. -/
def gC7 : Grid := mkGrid [hexWith (some cellA) none, hexEmpty, hexEmpty,
  hexEmpty]

/-- Fixture: a pending Move decision. -/
def decMoveFix : Decision :=
  { choice := Choice.Move Direction.Left, coefficients := fun _ => 0 }

/-- Fixture grid for C10: an organism at (1,0) with a pending Move decision
and three empty tiles; decisions sit only on occupied tiles. -/
def gC10 : Grid := mkGrid [hexEmpty, hexWith (some cellA) (some decMoveFix),
  hexEmpty, hexEmpty]

end Evomata

namespace Evomata

/-! ## Modular arithmetic helpers for the wrapped coordinate tables. -/

theorem mod_inc (a n : Nat) (ha : a < n) :
    (a + n + 1) % n = if a + 1 = n then 0 else a + 1 := by
  have h1 : a + n + 1 = (a + 1) + n := by omega
  rw [h1, Nat.add_mod_right]
  by_cases h : a + 1 = n
  · simp [h]
  · have : a + 1 < n := by omega
    rw [Nat.mod_eq_of_lt this]
    simp [h]

theorem mod_dec (a n : Nat) (ha : a < n) (hn : 1 ≤ n) :
    (a + n - 1) % n = if a = 0 then n - 1 else a - 1 := by
  by_cases h : a = 0
  · subst h
    have : n - 1 < n := by omega
    rw [Nat.zero_add, Nat.mod_eq_of_lt this]
    simp
  · have h1 : a + n - 1 = (a - 1) + n := by omega
    rw [h1, Nat.add_mod_right]
    have : a - 1 < n := by omega
    rw [Nat.mod_eq_of_lt this]
    simp [h]

theorem inc_dec (a n : Nat) (ha : a < n) :
    ((a + n + 1) % n + n - 1) % n = a := by
  rw [mod_inc a n ha]
  by_cases h : a + 1 = n
  · rw [if_pos h, mod_dec 0 n (by omega) (by omega)]
    split <;> omega
  · rw [if_neg h, mod_dec (a + 1) n (by omega) (by omega)]
    split <;> omega

theorem dec_inc (a n : Nat) (ha : a < n) (hn : 1 ≤ n) :
    ((a + n - 1) % n + n + 1) % n = a := by
  rw [mod_dec a n ha hn]
  by_cases h : a = 0
  · rw [if_pos h, mod_inc (n - 1) n (by omega)]
    rw [if_pos (by omega)]
    omega
  · rw [if_neg h, mod_inc (a - 1) n (by omega)]
    rw [if_neg (by omega)]
    omega

theorem mod_dec_parity (y h : Nat) (hy : y < h) (hh : h % 2 = 0)
    (h1 : 1 ≤ h) : ((y + h - 1) % h) % 2 = (y + 1) % 2 := by
  rw [mod_dec y h hy h1]
  split_ifs with h0 <;> omega

theorem mod_inc_parity (y h : Nat) (hy : y < h) (hh : h % 2 = 0) :
    ((y + h + 1) % h) % 2 = (y + 1) % 2 := by
  rw [mod_inc y h hy]
  split_ifs with h0 <;> omega

/-- Claim C1 (amended): for every grid with width ≥ 1 and **even** height
≥ 2, every in-range coordinate (x, y), and every direction index i in 0..5,
the neighbor of (x, y) in direction i, taken in the opposite direction
(index (i+3) mod 6), yields (x, y) again.  (The original claim, quantified
over all heights ≥ 1, fails for odd heights; see the counterexample.) -/
theorem C1_toroidal_closure_even_height (w h x y : Nat) (i : Fin 6)
    (hw : 1 ≤ w) (hh : h % 2 = 0) (hh1 : 1 ≤ h) (hx : x < w) (hy : y < h) :
    neighborCoord w h (neighborCoord w h x y i).1 (neighborCoord w h x y i).2
      (oppositeIdx i) = (x, y) := by
  rcases i with ⟨iv, hiv⟩
  interval_cases iv <;> by_cases hy2 : y % 2 = 0
  -- i = 0 (UpRight)
  · have hp : ¬ ((y + h - 1) % h) % 2 = 0 := by
      rw [mod_dec_parity y h hy hh hh1]; omega
    simp only [neighborCoord, oppositeIdx, hy2, hp, if_true, if_false,
      reduceIte]
    rw [inc_dec x w hx, dec_inc y h hy hh1]
  · have hp : ((y + h - 1) % h) % 2 = 0 := by
      rw [mod_dec_parity y h hy hh hh1]; omega
    simp only [neighborCoord, oppositeIdx, hy2, hp, if_true, if_false,
      reduceIte]
    rw [dec_inc y h hy hh1]
  -- i = 1 (UpLeft)
  · have hp : ¬ ((y + h - 1) % h) % 2 = 0 := by
      rw [mod_dec_parity y h hy hh hh1]; omega
    simp only [neighborCoord, oppositeIdx, hy2, hp, if_true, if_false,
      reduceIte]
    rw [dec_inc y h hy hh1]
  · have hp : ((y + h - 1) % h) % 2 = 0 := by
      rw [mod_dec_parity y h hy hh hh1]; omega
    simp only [neighborCoord, oppositeIdx, hy2, hp, if_true, if_false,
      reduceIte]
    rw [dec_inc x w hx hw, dec_inc y h hy hh1]
  -- i = 2 (Left)
  · simp only [neighborCoord, oppositeIdx, hy2, if_true, if_false,
      reduceIte]
    rw [dec_inc x w hx hw]
  · simp only [neighborCoord, oppositeIdx, hy2, if_true, if_false,
      reduceIte]
    rw [dec_inc x w hx hw]
  -- i = 3 (DownLeft)
  · have hp : ¬ ((y + h + 1) % h) % 2 = 0 := by
      rw [mod_inc_parity y h hy hh]; omega
    simp only [neighborCoord, oppositeIdx, hy2, hp, if_true, if_false,
      reduceIte]
    rw [inc_dec y h hy]
  · have hp : ((y + h + 1) % h) % 2 = 0 := by
      rw [mod_inc_parity y h hy hh]; omega
    simp only [neighborCoord, oppositeIdx, hy2, hp, if_true, if_false,
      reduceIte]
    rw [dec_inc x w hx hw, inc_dec y h hy]
  -- i = 4 (DownRight)
  · have hp : ¬ ((y + h + 1) % h) % 2 = 0 := by
      rw [mod_inc_parity y h hy hh]; omega
    simp only [neighborCoord, oppositeIdx, hy2, hp, if_true, if_false,
      reduceIte]
    rw [inc_dec x w hx, inc_dec y h hy]
  · have hp : ((y + h + 1) % h) % 2 = 0 := by
      rw [mod_inc_parity y h hy hh]; omega
    simp only [neighborCoord, oppositeIdx, hy2, hp, if_true, if_false,
      reduceIte]
    rw [inc_dec y h hy]
  -- i = 5 (Right)
  · simp only [neighborCoord, oppositeIdx, hy2, if_true, if_false,
      reduceIte]
    rw [inc_dec x w hx]
  · simp only [neighborCoord, oppositeIdx, hy2, if_true, if_false,
      reduceIte]
    rw [inc_dec x w hx]

/-- Claim C1 counterexample: on a 2×1 grid (width 2, height 1, both ≥ 1)
the toroidal closure fails at coordinate (0,0) for direction index 0:
the UpRight neighbor of (0,0) is (1,0), and its DownLeft neighbor (the
opposite index, 3) is (1,0), not (0,0).  So the claim as stated — for
every grid with width ≥ 1 and height ≥ 1 — is false. -/
theorem C1_counterexample :
    neighborCoord 2 1 (neighborCoord 2 1 0 0 (0 : Fin 6)).1
      (neighborCoord 2 1 0 0 (0 : Fin 6)).2 (oppositeIdx (0 : Fin 6))
      ≠ (0, 0) := by decide

/-- Witness for `C1_toroidal_closure_even_height` at w = 2, h = 2,
(x, y) = (1, 1), i = 4. -/
theorem C1_toroidal_closure_even_height_witness :
    (1 ≤ 2 ∧ 2 % 2 = 0 ∧ (1 : Nat) < 2) ∧
      neighborCoord 2 2 (neighborCoord 2 2 1 1 (4 : Fin 6)).1
        (neighborCoord 2 2 1 1 (4 : Fin 6)).2 (oppositeIdx (4 : Fin 6))
        = (1, 1) :=
  ⟨by decide,
   C1_toroidal_closure_even_height 2 2 1 1 4 (by decide) (by decide)
     (by decide) (by decide) (by decide)⟩

/-! ## Tile-store access lemmas. -/

theorem list_getD_set_self {α : Type} (l : List α) (i : Nat) (v d : α)
    (h : i < l.length) : (l.set i v).getD i d = v := by
  simp [List.getD_eq_getElem?_getD, List.getElem?_set_self, h]

theorem list_getD_set_ne {α : Type} (l : List α) (i j : Nat) (v d : α)
    (h : i ≠ j) : (l.set i v).getD j d = l.getD j d := by
  simp [List.getD_eq_getElem?_getD, List.getElem?_set_ne h]

theorem hexIdx_lt (w h x y : Nat) (hx : x < w) (hy : y < h) :
    x + y * w < w * h := by
  have h1 : (y + 1) * w ≤ h * w := Nat.mul_le_mul_right w (by omega)
  rw [Nat.succ_mul] at h1
  rw [Nat.mul_comm w h]
  omega

theorem hexIdx_inj (w x y a b : Nat) (hx : x < w) (ha : a < w)
    (hid : x + y * w = a + b * w) : x = a ∧ y = b := by
  have h1 : (x + y * w) % w = x := by
    simp [Nat.add_mul_mod_self_right, Nat.mod_eq_of_lt hx]
  have h2 : (a + b * w) % w = a := by
    simp [Nat.add_mul_mod_self_right, Nat.mod_eq_of_lt ha]
  have h3 : (x + y * w) / w = y := by
    rw [Nat.add_mul_div_right _ _ (by omega : 0 < w), Nat.div_eq_of_lt hx,
      Nat.zero_add]
  have h4 : (a + b * w) / w = b := by
    rw [Nat.add_mul_div_right _ _ (by omega : 0 < w), Nat.div_eq_of_lt ha,
      Nat.zero_add]
  constructor
  · rw [← h1, ← h2, hid]
  · rw [← h3, ← h4, hid]

@[simp] theorem setHex_width (g : Grid) (x y : Nat) (t : Hex) :
    (setHex g x y t).width = g.width := rfl

@[simp] theorem setHex_height (g : Grid) (x y : Nat) (t : Hex) :
    (setHex g x y t).height = g.height := rfl

@[simp] theorem setHex_movement_cost (g : Grid) (x y : Nat) (t : Hex) :
    (setHex g x y t).movement_cost = g.movement_cost := rfl

@[simp] theorem setHex_divide_cost (g : Grid) (x y : Nat) (t : Hex) :
    (setHex g x y t).divide_cost = g.divide_cost := rfl

@[simp] theorem setHex_tiles_length (g : Grid) (x y : Nat) (t : Hex) :
    (setHex g x y t).tiles.length = g.tiles.length := by
  simp [setHex]

@[simp] theorem setCell_width (g : Grid) (x y : Nat) (c : Option Cell) :
    (setCell g x y c).width = g.width := rfl

@[simp] theorem setCell_height (g : Grid) (x y : Nat) (c : Option Cell) :
    (setCell g x y c).height = g.height := rfl

@[simp] theorem setCell_movement_cost (g : Grid) (x y : Nat) (c : Option Cell) :
    (setCell g x y c).movement_cost = g.movement_cost := rfl

@[simp] theorem setCell_divide_cost (g : Grid) (x y : Nat) (c : Option Cell) :
    (setCell g x y c).divide_cost = g.divide_cost := rfl

@[simp] theorem setCell_tiles_length (g : Grid) (x y : Nat) (c : Option Cell) :
    (setCell g x y c).tiles.length = g.tiles.length := by
  simp [setCell]

@[simp] theorem setDecision_width (g : Grid) (x y : Nat) (d : Option Decision) :
    (setDecision g x y d).width = g.width := rfl

@[simp] theorem setDecision_height (g : Grid) (x y : Nat) (d : Option Decision) :
    (setDecision g x y d).height = g.height := rfl

@[simp] theorem setDecision_tiles_length (g : Grid) (x y : Nat)
    (d : Option Decision) : (setDecision g x y d).tiles.length = g.tiles.length := by
  simp [setDecision]

theorem hex_setHex_self (g : Grid) (x y : Nat) (t : Hex)
    (hx : x < g.width) (hy : y < g.height)
    (hlen : g.tiles.length = g.width * g.height) :
    hex (setHex g x y t) x y = t := by
  simp only [hex, setHex]
  exact list_getD_set_self _ _ _ _ (by rw [hlen]; exact hexIdx_lt _ _ _ _ hx hy)

theorem hex_setHex_ne (g : Grid) (x y a b : Nat) (t : Hex)
    (hx : x < g.width) (ha : a < g.width) (hne : ¬(a = x ∧ b = y)) :
    hex (setHex g x y t) a b = hex g a b := by
  simp only [hex, setHex]
  apply list_getD_set_ne
  intro hid
  rcases hexIdx_inj g.width x y a b hx ha hid with ⟨h1, h2⟩
  exact hne ⟨h1.symm, h2.symm⟩

theorem hex_setCell_self (g : Grid) (x y : Nat) (c : Option Cell)
    (hx : x < g.width) (hy : y < g.height)
    (hlen : g.tiles.length = g.width * g.height) :
    hex (setCell g x y c) x y = { hex g x y with cell := c } :=
  hex_setHex_self g x y _ hx hy hlen

theorem hex_setCell_ne (g : Grid) (x y a b : Nat) (c : Option Cell)
    (hx : x < g.width) (ha : a < g.width) (hne : ¬(a = x ∧ b = y)) :
    hex (setCell g x y c) a b = hex g a b :=
  hex_setHex_ne g x y a b _ hx ha hne

theorem hex_setDecision_self (g : Grid) (x y : Nat) (d : Option Decision)
    (hx : x < g.width) (hy : y < g.height)
    (hlen : g.tiles.length = g.width * g.height) :
    hex (setDecision g x y d) x y = { hex g x y with decision := d } :=
  hex_setHex_self g x y _ hx hy hlen

theorem hex_setDecision_ne (g : Grid) (x y a b : Nat) (d : Option Decision)
    (hx : x < g.width) (ha : a < g.width) (hne : ¬(a = x ∧ b = y)) :
    hex (setDecision g x y d) a b = hex g a b :=
  hex_setHex_ne g x y a b _ hx ha hne

/-- Claim C4: a tile that recorded 0 or 2 movement attempts (and, when not
moving, 0 or 2 mate attempts) produces no movement or mating outcome in the
apply pass: the step only clears the tile's decision, so its occupant is
unchanged and no other tile (hence no organism elsewhere) is touched or
charged; in particular two organisms colliding on one empty target tile
both stay put and the target stays unoccupied. -/
theorem C4_collision_cancels {R : Type} (E : Ext R) (g : Grid) (rng : R)
    (x y : Nat) (hx : x < g.width) (hy : y < g.height)
    (hlen : g.tiles.length = g.width * g.height)
    (hmov : (hex g x y).delta.movement_attempts.length ≠ 1)
    (hmate : (hex g x y).delta.mate_attempts.length ≠ 1) :
    applyStep E g rng x y = some (setDecision g x y none, rng) ∧
      (hex (setDecision g x y none) x y).cell = (hex g x y).cell ∧
      (∀ a b, a < g.width → ¬(a = x ∧ b = y) →
        hex (setDecision g x y none) a b = hex g a b) := by
  refine ⟨?_, ?_, ?_⟩
  · simp only [applyStep, applyStepAction, if_neg hmov, if_neg hmate]
  · rw [hex_setDecision_self g x y none hx hy hlen]
  · intro a b ha hne
    exact hex_setDecision_ne g x y a b none hx ha hne

/-- Claim C3: a tile that recorded exactly one movement attempt receives
the organism from the attempt's source coordinate: after the apply step the
tile is occupied by that organism, the source tile is unoccupied, and the
organism's inhale becomes `inhale - movement_cost` truncated at 0 (`Nat`
subtraction, i.e. `max (inhale - movement_cost) 0`, never negative). -/
theorem C3_single_movement {R : Type} (E : Ext R) (g : Grid) (rng : R)
    (x y sx sy : Nat) (c : Cell)
    (hx : x < g.width) (hy : y < g.height)
    (hsx : sx < g.width) (hsy : sy < g.height)
    (hlen : g.tiles.length = g.width * g.height)
    (hatt : (hex g x y).delta.movement_attempts = [(sx, sy)])
    (hne : ¬(sx = x ∧ sy = y))
    (hcell : (hex g sx sy).cell = some c) :
    ∃ g1, applyStep E g rng x y = some (g1, rng) ∧
      (hex g1 x y).cell = some { c with inhale := c.inhale - g.movement_cost } ∧
      (hex g1 sx sy).cell = none := by
  have hlen1 : (hex g x y).delta.movement_attempts.length = 1 := by
    rw [hatt]; rfl
  have hget : (hex g x y).delta.movement_attempts.getD 0 (0, 0) = (sx, sy) := by
    rw [hatt]; rfl
  have hne2 : ¬(x = sx ∧ y = sy) := by
    intro hcon
    exact hne ⟨hcon.1.symm, hcon.2.symm⟩
  have hlen2 : (setCell g sx sy none).tiles.length =
      (setCell g sx sy none).width * (setCell g sx sy none).height := by
    simp [hlen]
  have htarget : (hex (setCell (setCell g sx sy none) x y (some c)) x y).cell
      = some c := by
    rw [hex_setCell_self (setCell g sx sy none) x y (some c) hx hy hlen2]
  have hbig : ∀ cfin : Cell,
      (hex (setDecision (setCell (setCell (setCell g sx sy none) x y (some c))
        x y (some cfin)) x y none) x y).cell = some cfin ∧
      (hex (setDecision (setCell (setCell (setCell g sx sy none) x y (some c))
        x y (some cfin)) x y none) sx sy).cell = none := by
    intro cfin
    constructor
    · rw [hex_setDecision_self
        (setCell (setCell (setCell g sx sy none) x y (some c)) x y (some cfin))
        x y none hx hy (by simp [hlen])]
      rw [hex_setCell_self (setCell (setCell g sx sy none) x y (some c))
        x y (some cfin) hx hy (by simp [hlen])]
    · rw [hex_setDecision_ne
        (setCell (setCell (setCell g sx sy none) x y (some c)) x y (some cfin))
        x y sx sy none hx hsx hne]
      rw [hex_setCell_ne (setCell (setCell g sx sy none) x y (some c))
        x y sx sy (some cfin) hx hsx hne]
      rw [hex_setCell_ne (setCell g sx sy none) x y sx sy (some c) hx hsx hne]
      rw [hex_setCell_self g sx sy none hsx hsy hlen]
  simp only [applyStep, applyStepAction, hlen1, hget, reduceIte, hcell, htarget]
  by_cases hin : c.inhale ≥ g.movement_cost
  · rw [if_pos hin]
    exact ⟨_, rfl, (hbig _).1, (hbig _).2⟩
  · rw [if_neg hin]
    have hzero : c.inhale - g.movement_cost = 0 := by omega
    rw [hzero]
    exact ⟨_, rfl, (hbig _).1, (hbig _).2⟩

theorem hex_cell_after_finish (g0 : Grid) (x y : Nat) (v : Option Cell)
    (hx : x < g0.width) (hy : y < g0.height)
    (hlen : g0.tiles.length = g0.width * g0.height) :
    (hex (setDecision (setCell g0 x y v) x y none) x y).cell = v := by
  rw [hex_setDecision_self (setCell g0 x y v) x y none hx hy (by simp [hlen])]
  rw [hex_setCell_self g0 x y v hx hy hlen]

theorem hex_after_finish_ne (g0 : Grid) (x y a b : Nat) (v : Option Cell)
    (hx : x < g0.width) (ha : a < g0.width) (hne : ¬(a = x ∧ b = y)) :
    hex (setDecision (setCell g0 x y v) x y none) a b = hex g0 a b := by
  rw [hex_setDecision_ne (setCell g0 x y v) x y a b none hx ha hne]
  rw [hex_setCell_ne g0 x y a b v hx ha hne]

/-- Claim C5: a tile with no movement outcome and exactly one mate attempt:
(a) if the attempt's mate coordinate is the tile itself, the source
organism pays `movement_cost + divide_cost` (clamped at 0 by `Nat`
subtraction) and the tile's occupant becomes the source's `divide` result;
(b) if the mate tile is occupied, the source pays the same clamped cost and
the tile's occupant becomes the `mate` result of the source organism with
the mate tile's organism; (c) if the mate tile is unoccupied, the tile gets
no occupant and nothing else changes (no cost is charged). -/
theorem C5_single_mate {R : Type} (E : Ext R) (g : Grid) (rng : R)
    (x y : Nat) (m : Mate)
    (hx : x < g.width) (hy : y < g.height)
    (hlen : g.tiles.length = g.width * g.height)
    (hmov : (hex g x y).delta.movement_attempts.length ≠ 1)
    (hatt : (hex g x y).delta.mate_attempts = [m]) :
    (∀ sc : Cell, m.mate = (x, y) →
      (hex g m.source.1 m.source.2).cell = some sc →
      m.source.1 < g.width → m.source.2 < g.height →
      ¬(m.source.1 = x ∧ m.source.2 = y) →
      ∃ g1, applyStep E g rng x y =
          some (g1, (E.divide { sc with
            inhale := sc.inhale - (g.movement_cost + g.divide_cost) } rng).2) ∧
        (hex g1 x y).cell = some (E.divide { sc with
          inhale := sc.inhale - (g.movement_cost + g.divide_cost) } rng).1 ∧
        (hex g1 m.source.1 m.source.2).cell = some { sc with
          inhale := sc.inhale - (g.movement_cost + g.divide_cost) }) ∧
    (∀ sc mc0 : Cell, ¬ m.mate = (x, y) →
      (hex g m.mate.1 m.mate.2).cell = some mc0 →
      (hex g m.source.1 m.source.2).cell = some sc →
      m.source.1 < g.width → m.source.2 < g.height →
      m.mate.1 < g.width →
      ¬(m.source.1 = x ∧ m.source.2 = y) →
      ¬(m.mate.1 = m.source.1 ∧ m.mate.2 = m.source.2) →
      ∃ g1, applyStep E g rng x y =
          some (g1, (E.mate { sc with
            inhale := sc.inhale - (g.movement_cost + g.divide_cost) } mc0 rng).2) ∧
        (hex g1 x y).cell = some (E.mate { sc with
          inhale := sc.inhale - (g.movement_cost + g.divide_cost) } mc0 rng).1 ∧
        (hex g1 m.source.1 m.source.2).cell = some { sc with
          inhale := sc.inhale - (g.movement_cost + g.divide_cost) }) ∧
    (¬ m.mate = (x, y) → (hex g m.mate.1 m.mate.2).cell = none →
      applyStep E g rng x y = some (setDecision (setCell g x y none) x y none, rng) ∧
      (hex (setDecision (setCell g x y none) x y none) x y).cell = none) := by
  have hlenm : (hex g x y).delta.mate_attempts.length = 1 := by
    rw [hatt]; rfl
  have hgetm : (hex g x y).delta.mate_attempts.getD 0
      { mate := (0, 0), source := (0, 0) } = m := by
    rw [hatt]; rfl
  refine ⟨?_, ?_, ?_⟩
  · intro sc hmate hsc hsx hsy hnsrc
    simp only [applyStep, applyStepAction, if_neg hmov, hlenm, hgetm, reduceIte,
      if_pos hmate, hsc]
    by_cases hin : sc.inhale ≥ g.movement_cost + g.divide_cost
    · rw [if_pos hin]
      refine ⟨_, rfl, ?_, ?_⟩
      · exact hex_cell_after_finish
          (setCell g m.source.1 m.source.2 (some _)) x y (some _) hx hy
          (by simp [hlen])
      · rw [hex_after_finish_ne
          (setCell g m.source.1 m.source.2 (some _)) x y m.source.1 m.source.2
          (some _) hx hsx hnsrc]
        rw [hex_setCell_self g m.source.1 m.source.2 (some _) hsx hsy hlen]
    · rw [if_neg hin]
      have hzero : sc.inhale - (g.movement_cost + g.divide_cost) = 0 := by
        omega
      rw [hzero]
      refine ⟨_, rfl, ?_, ?_⟩
      · exact hex_cell_after_finish
          (setCell g m.source.1 m.source.2 (some _)) x y (some _) hx hy
          (by simp [hlen])
      · rw [hex_after_finish_ne
          (setCell g m.source.1 m.source.2 (some _)) x y m.source.1 m.source.2
          (some _) hx hsx hnsrc]
        rw [hex_setCell_self g m.source.1 m.source.2 (some _) hsx hsy hlen]
  · intro sc mc0 hmate hmc hsc hsx hsy hmx hnsrc hnmates
    have hmc1 : ∀ v : Option Cell,
        (hex (setCell g m.source.1 m.source.2 v) m.mate.1 m.mate.2).cell
          = some mc0 := by
      intro v
      rw [hex_setCell_ne g m.source.1 m.source.2 m.mate.1 m.mate.2 v hsx hmx
        hnmates, hmc]
    simp only [applyStep, applyStepAction, if_neg hmov, hlenm, hgetm, reduceIte,
      if_neg hmate, hsc, hmc, Option.isSome_some, if_true, hmc1]
    by_cases hin : sc.inhale ≥ g.movement_cost + g.divide_cost
    · rw [if_pos hin]
      refine ⟨_, rfl, ?_, ?_⟩
      · exact hex_cell_after_finish
          (setCell g m.source.1 m.source.2 (some _)) x y (some _) hx hy
          (by simp [hlen])
      · rw [hex_after_finish_ne
          (setCell g m.source.1 m.source.2 (some _)) x y m.source.1 m.source.2
          (some _) hx hsx hnsrc]
        rw [hex_setCell_self g m.source.1 m.source.2 (some _) hsx hsy hlen]
    · rw [if_neg hin]
      have hzero : sc.inhale - (g.movement_cost + g.divide_cost) = 0 := by
        omega
      rw [hzero]
      refine ⟨_, rfl, ?_, ?_⟩
      · exact hex_cell_after_finish
          (setCell g m.source.1 m.source.2 (some _)) x y (some _) hx hy
          (by simp [hlen])
      · rw [hex_after_finish_ne
          (setCell g m.source.1 m.source.2 (some _)) x y m.source.1 m.source.2
          (some _) hx hsx hnsrc]
        rw [hex_setCell_self g m.source.1 m.source.2 (some _) hsx hsy hlen]
  · intro hmate hmc
    constructor
    · simp only [applyStep, applyStepAction, if_neg hmov, hlenm, hgetm, reduceIte,
        if_neg hmate, hmc, Option.isSome_none, if_false]
      rfl
    · exact hex_cell_after_finish g x y none hx hy hlen

/-- Claim C6: in the metabolism/death phase, an occupied tile whose
organism has the suicide flag set, or whose kill-signal channel (fluid 3)
is above the upper or below the lower threshold, or whose organism's
inhale is below `inhale_minimum`, loses its organism, and its food channel
(fluid 0) grows by exactly
`death_release_coefficient × consumption × (pre-death inhale)`. -/
theorem C6_death_releases_nutrient {R : Type} (E : Ext R) (g : Grid)
    (x y : Nat) (c : Cell)
    (hc : (hex g x y).cell = some c)
    (hdead : c.suicide = true ∨ (hex g x y).solution.fluids 3 > E.killUpper ∨
      (hex g x y).solution.fluids 3 < E.killLower ∨
      c.inhale < g.inhale_minimum) :
    (deathTile E g x y).cell = none ∧
      (deathTile E g x y).solution.fluids 0 =
        (hex g x y).solution.fluids 0 +
          g.death_release_coefficient * g.consumption * (c.inhale : Rat) := by
  simp only [deathTile, hc, if_pos hdead]
  exact ⟨trivial, Function.update_same 0 _ _⟩

/-- Claim C7: in the metabolism/death phase, an occupied tile meeting no
death condition behaves as: if food (fluid 0) is at or below `consumption`
then a nonzero inhale is decremented by 1 with the food channel unchanged,
and a zero inhale removes the organism with the food channel unchanged (no
release); otherwise `consumption` is deducted from the food channel and the
inhale is incremented by 1 exactly when it is below `inhale_cap`. -/
theorem C7_metabolism {R : Type} (E : Ext R) (g : Grid) (x y : Nat) (c : Cell)
    (hc : (hex g x y).cell = some c)
    (halive : ¬(c.suicide = true ∨ (hex g x y).solution.fluids 3 > E.killUpper ∨
      (hex g x y).solution.fluids 3 < E.killLower ∨
      c.inhale < g.inhale_minimum)) :
    ((hex g x y).solution.fluids 0 ≤ g.consumption →
      (c.inhale ≠ 0 →
        (deathTile E g x y).cell = some { c with inhale := c.inhale - 1 } ∧
        (deathTile E g x y).solution.fluids 0 = (hex g x y).solution.fluids 0) ∧
      (c.inhale = 0 →
        (deathTile E g x y).cell = none ∧
        (deathTile E g x y).solution.fluids 0 = (hex g x y).solution.fluids 0)) ∧
    ((hex g x y).solution.fluids 0 > g.consumption →
      (deathTile E g x y).solution.fluids 0 =
        (hex g x y).solution.fluids 0 - g.consumption ∧
      (deathTile E g x y).cell = some { c with inhale :=
        if c.inhale < g.inhale_cap then c.inhale + 1 else c.inhale }) := by
  constructor
  · intro hfood
    constructor
    · intro hnz
      simp only [deathTile, hc, if_neg halive, if_pos hfood, if_pos hnz]
      exact ⟨trivial, trivial⟩
    · intro hz
      simp only [deathTile, hc, if_neg halive, if_pos hfood,
        if_neg (show ¬ c.inhale ≠ 0 by simp [hz])]
      exact ⟨trivial, trivial⟩
  · intro hfood
    have hle : ¬ (hex g x y).solution.fluids 0 ≤ g.consumption := not_le.mpr hfood
    have hneg : ¬ (Function.update (hex g x y).solution.fluids 0
        ((hex g x y).solution.fluids 0 - g.consumption) 0 < 0) := by
      simp only [Function.update_same]
      intro hcon
      have : (hex g x y).solution.fluids 0 < g.consumption := by linarith
      exact absurd this (not_lt.mpr (le_of_lt hfood))
    simp only [deathTile, hc, if_neg halive, if_neg hle, if_neg hneg]
    constructor
    · split_ifs <;> simp [Function.update_same]
    · split_ifs <;> rfl

/-- Claim C2 demonstration (code bug): in `Grid::cycle_decisions` the
Explode/Suicide arms live inside the `if this.cell.is_none()` block and
then test `this.cell` — the (necessarily absent) occupant of the *target*
tile instead of the acting organism — so they can never fire.  On a grid
where the organism at (1,0) decided Suicide and the organism at (0,1)
decided Explode(+) with inhale ≥ `explode_requirement`, the gather step
leaves every suicide flag false and every structural-channel accumulation
(diffuse index 2) at 0, contradicting the claim that these decisions are
applied wherever decided. -/
theorem C2_explode_suicide_dead_code :
    (hex (gatherPhase 1 unitExt gC2) 1 0).cell = some cellA ∧
    cellA.suicide = false ∧
    (hex (gatherPhase 1 unitExt gC2) 0 1).cell = some cellB ∧
    cellB.inhale ≥ gC2.explode_requirement ∧
    ((hex (gatherPhase 1 unitExt gC2) 0 0).solution.diffuse 2 = 0 ∧
     (hex (gatherPhase 1 unitExt gC2) 1 0).solution.diffuse 2 = 0 ∧
     (hex (gatherPhase 1 unitExt gC2) 0 1).solution.diffuse 2 = 0 ∧
     (hex (gatherPhase 1 unitExt gC2) 1 1).solution.diffuse 2 = 0) := by
  decide

/-- Witness for `C3_single_movement` on the fixture grid `gC3`. -/
theorem C3_single_movement_witness :
    ((hex gC3 0 0).delta.movement_attempts = [(1, 0)] ∧
      (hex gC3 1 0).cell = some cellA) ∧
    ∃ g1, applyStep unitExt gC3 () 0 0 = some (g1, ()) ∧
      (hex g1 0 0).cell =
        some { cellA with inhale := cellA.inhale - gC3.movement_cost } ∧
      (hex g1 1 0).cell = none :=
  ⟨by decide,
   C3_single_movement unitExt gC3 () 0 0 1 0 cellA (by decide) (by decide)
     (by decide) (by decide) (by decide) (by decide) (by decide) (by decide)⟩

/-- Witness for `C4_collision_cancels` on the fixture grid `gC4` (two
competing movement attempts into the empty tile (0,0)). -/
theorem C4_collision_cancels_witness :
    ((hex gC4 0 0).delta.movement_attempts.length = 2 ∧
      (hex gC4 0 0).delta.mate_attempts.length = 0) ∧
    (applyStep unitExt gC4 () 0 0 = some (setDecision gC4 0 0 none, ()) ∧
      (hex (setDecision gC4 0 0 none) 0 0).cell = (hex gC4 0 0).cell ∧
      (∀ a b, a < gC4.width → ¬(a = 0 ∧ b = 0) →
        hex (setDecision gC4 0 0 none) a b = hex gC4 a b)) :=
  ⟨by decide,
   C4_collision_cancels unitExt gC4 () 0 0 (by decide) (by decide) (by decide)
     (by decide) (by decide)⟩

/-- Witness for `C5_single_mate` on the fixture grid `gC5` (self-division:
the mate coordinate equals the target tile). -/
theorem C5_single_mate_witness :
    ((hex gC5 0 0).delta.movement_attempts.length ≠ 1 ∧
      (hex gC5 0 0).delta.mate_attempts =
        [{ mate := (0, 0), source := (1, 0) }] ∧
      (hex gC5 1 0).cell = some cellA) ∧
    ∃ g1, applyStep unitExt gC5 () 0 0 =
        some (g1, (unitExt.divide { cellA with
          inhale := cellA.inhale - (gC5.movement_cost + gC5.divide_cost) } ()).2) ∧
      (hex g1 0 0).cell = some (unitExt.divide { cellA with
        inhale := cellA.inhale - (gC5.movement_cost + gC5.divide_cost) } ()).1 ∧
      (hex g1 1 0).cell = some { cellA with
        inhale := cellA.inhale - (gC5.movement_cost + gC5.divide_cost) } :=
  ⟨by decide,
   (C5_single_mate unitExt gC5 () 0 0 { mate := (0, 0), source := (1, 0) }
      (by decide) (by decide) (by decide) (by decide) (by decide)).1 cellA
     (by decide) (by decide) (by decide) (by decide) (by decide)⟩

/-- Witness for `C6_death_releases_nutrient` on the fixture grid `gC6`. -/
theorem C6_death_releases_nutrient_witness :
    ((hex gC6 0 0).cell = some cellDead ∧ cellDead.suicide = true) ∧
    ((deathTile unitExt gC6 0 0).cell = none ∧
      (deathTile unitExt gC6 0 0).solution.fluids 0 =
        (hex gC6 0 0).solution.fluids 0 +
          gC6.death_release_coefficient * gC6.consumption *
            (cellDead.inhale : Rat)) :=
  ⟨by decide,
   C6_death_releases_nutrient unitExt gC6 0 0 cellDead (by decide)
     (Or.inl (by decide))⟩

/-- Witness for `C7_metabolism` on the fixture grid `gC7` (food at or below
consumption, nonzero inhale: the inhale decrements and the food channel is
untouched). -/
theorem C7_metabolism_witness :
    ((hex gC7 0 0).cell = some cellA ∧
      (hex gC7 0 0).solution.fluids 0 ≤ gC7.consumption ∧
      cellA.inhale ≠ 0) ∧
    ((deathTile unitExt gC7 0 0).cell =
        some { cellA with inhale := cellA.inhale - 1 } ∧
      (deathTile unitExt gC7 0 0).solution.fluids 0 =
        (hex gC7 0 0).solution.fluids 0) :=
  ⟨by decide,
   ((C7_metabolism unitExt gC7 0 0 cellA (by decide) (by decide)).1
      (by decide)).1 (by decide)⟩

/-! ## Shard-count independence of the parallel phases. -/

theorem foldl_set_length (w : Nat) (F : Nat → Nat → Hex)
    (L : List (Nat × Nat)) (ts : List Hex) :
    (L.foldl (fun ts p => ts.set (p.1 + p.2 * w) (F p.1 p.2)) ts).length
      = ts.length := by
  induction L generalizing ts with
  | nil => rfl
  | cons a L ih =>
    rw [List.foldl_cons, ih]
    simp

theorem foldl_set_lookup (w h : Nat) (F : Nat → Nat → Hex) (x y : Nat)
    (hx : x < w) (hy : y < h) (L : List (Nat × Nat)) :
    ∀ ts : List Hex, ts.length = w * h →
      (∀ p, p ∈ L → p.1 < w ∧ p.2 < h) →
      (L.foldl (fun ts p => ts.set (p.1 + p.2 * w) (F p.1 p.2)) ts).getD
          (x + y * w) default =
        if (x, y) ∈ L then F x y else ts.getD (x + y * w) default := by
  induction L with
  | nil => intro ts hlen hmem; simp
  | cons a L ih =>
    rcases a with ⟨a1, a2⟩
    intro ts hlen hmem
    rw [List.foldl_cons]
    rw [ih (ts.set (a1 + a2 * w) (F a1 a2)) (by simp [hlen])
      (fun p hp => hmem p (List.mem_cons_of_mem _ hp))]
    by_cases hmem2 : (x, y) ∈ L
    · rw [if_pos hmem2, if_pos (List.mem_cons_of_mem _ hmem2)]
    · rw [if_neg hmem2]
      by_cases heq : ((x, y) : Nat × Nat) = (a1, a2)
      · have hxa : x = a1 ∧ y = a2 := by
          simpa [Prod.ext_iff] using heq
        rcases hxa with ⟨hxa1, hxa2⟩
        subst hxa1
        subst hxa2
        rw [if_pos (List.mem_cons_self _ _)]
        exact list_getD_set_self _ _ _ _
          (by rw [hlen]; exact hexIdx_lt w h x y hx hy)
      · rw [if_neg (by
          intro hcon
          rcases List.mem_cons.mp hcon with hcon1 | hcon2
          · exact heq hcon1
          · exact hmem2 hcon2)]
        rw [list_getD_set_ne]
        intro hid
        have hb := hexIdx_inj w a1 a2 x y (hmem (a1, a2) (List.mem_cons_self _ _)).1 hx hid
        exact heq (by simp [Prod.ext_iff, hb.1.symm, hb.2.symm])

theorem shard_coverage (h n y : Nat) (hn : 1 ≤ n) (hy : y < h) :
    ∃ i, i < n ∧ h * i / n ≤ y ∧ y < h * (i + 1) / n := by
  have hh : 1 ≤ h := by omega
  have hnp : 1 ≤ n * (y + 1) := Nat.mul_pos (by omega) (by omega)
  have hA : (n * (y + 1) - 1) / h * h ≤ n * (y + 1) - 1 :=
    Nat.div_mul_le_self _ _
  have hdm := Nat.div_add_mod (n * (y + 1) - 1) h
  have hml : (n * (y + 1) - 1) % h < h := Nat.mod_lt _ (by omega)
  have hyh : n * (y + 1) ≤ n * h := Nat.mul_le_mul_left n (by omega)
  refine ⟨(n * (y + 1) - 1) / h, ?_, ?_, ?_⟩
  · rw [Nat.div_lt_iff_lt_mul (by omega : 0 < h)]
    omega
  · have hq : h * ((n * (y + 1) - 1) / h) < (y + 1) * n := by
      have hcm : h * ((n * (y + 1) - 1) / h) = (n * (y + 1) - 1) / h * h :=
        Nat.mul_comm _ _
      have hcm2 : (y + 1) * n = n * (y + 1) := Nat.mul_comm _ _
      omega
    have hdiv := (Nat.div_lt_iff_lt_mul (show 0 < n by omega)).mpr hq
    omega
  · have hge : (y + 1) * n ≤ h * ((n * (y + 1) - 1) / h + 1) := by
      have hexp : h * ((n * (y + 1) - 1) / h + 1)
          = h * ((n * (y + 1) - 1) / h) + h := by ring
      have hcm2 : (y + 1) * n = n * (y + 1) := Nat.mul_comm _ _
      omega
    have hdiv := (Nat.le_div_iff_mul_le (show 0 < n by omega)).mpr hge
    omega

theorem mem_shardAll (w h n : Nat) (hn : 1 ≤ n) (x y : Nat) :
    (x, y) ∈ (List.range n).flatMap (fun i => shardPositions w h n i)
      ↔ (x < w ∧ y < h) := by
  constructor
  · intro hm
    rw [List.mem_flatMap] at hm
    obtain ⟨i, hi, hmem⟩ := hm
    rw [List.mem_range] at hi
    unfold shardPositions at hmem
    rw [List.mem_flatMap] at hmem
    obtain ⟨x1, hx1, hmem2⟩ := hmem
    rw [List.mem_range] at hx1
    rw [List.mem_map] at hmem2
    obtain ⟨k, hk, heq⟩ := hmem2
    rw [List.mem_range] at hk
    have hxy : x1 = x ∧ h * i / n + k = y := by
      simpa [Prod.ext_iff] using heq
    have hbound : h * (i + 1) / n ≤ h := by
      apply Nat.div_le_of_le_mul
      calc h * (i + 1) ≤ h * n := Nat.mul_le_mul_left h (by omega)
        _ = n * h := Nat.mul_comm _ _
    have hy2 : y < h * (i + 1) / n := by omega
    exact ⟨by omega, lt_of_lt_of_le hy2 hbound⟩
  · rintro ⟨hx, hy⟩
    obtain ⟨i, hi, hlow, hhigh⟩ := shard_coverage h n y hn hy
    rw [List.mem_flatMap]
    refine ⟨i, List.mem_range.mpr hi, ?_⟩
    unfold shardPositions
    rw [List.mem_flatMap]
    refine ⟨x, List.mem_range.mpr hx, ?_⟩
    rw [List.mem_map]
    refine ⟨y - h * i / n, List.mem_range.mpr (by omega), ?_⟩
    have hyy : h * i / n + (y - h * i / n) = y := by omega
    simp [hyy]

theorem runShards_eq (n : Nat) (g : Grid) (f : Grid → Nat → Nat → Hex)
    (hn : 1 ≤ n) (hlen : g.tiles.length = g.width * g.height) :
    runShards n g f = mapTiles g f := by
  unfold runShards mapTiles
  refine congrArg (fun ts => { g with tiles := ts }) ?_
  apply List.ext_getElem
  · rw [foldl_set_length]
    simp [hlen]
  · intro j hj1 hj2
    have hjlt : j < g.width * g.height := by
      have hcopy := hj1
      rw [foldl_set_length, hlen] at hcopy
      exact hcopy
    have hw : 0 < g.width := by
      rcases Nat.eq_zero_or_pos g.width with h0 | h1
      · rw [h0] at hjlt; omega
      · exact h1
    have hx : j % g.width < g.width := Nat.mod_lt _ hw
    have hy : j / g.width < g.height := by
      rw [Nat.div_lt_iff_lt_mul hw]
      calc j < g.width * g.height := hjlt
        _ = g.height * g.width := Nat.mul_comm _ _
    have hid : j % g.width + j / g.width * g.width = j := Nat.mod_add_div' j g.width
    have hgd := foldl_set_lookup g.width g.height (f g) (j % g.width)
      (j / g.width) hx hy
      ((List.range n).flatMap (fun i => shardPositions g.width g.height n i))
      g.tiles hlen
      (fun p hp => by
        rcases p with ⟨p1, p2⟩
        exact (mem_shardAll g.width g.height n hn p1 p2).mp hp)
    rw [if_pos ((mem_shardAll g.width g.height n hn _ _).mpr ⟨hx, hy⟩)] at hgd
    rw [hid] at hgd
    rw [← List.getD_eq_getElem _ default hj1, hgd]
    rw [List.getElem_map, List.getElem_range]

theorem mapTiles_length (g : Grid) (f : Grid → Nat → Nat → Hex) :
    (mapTiles g f).tiles.length = (mapTiles g f).width * (mapTiles g f).height := by
  simp [mapTiles]

/-- Claim C8: the diffusion phase is exactly two full-grid passes in
order — first every tile folds `diffuse_from` over its 6 neighbors, with
the FlatSignals regime exactly when the neighbor is occupied and the
DynSignals regime exactly when it is not, at coefficient index
`(i + 3) % 6`; then, only after all accumulation, every tile commits via
`end_cycle`.  Stated as: the translated `cycle_fluids` (for any worker
count) coincides with the spec-worded `cycle_fluids_spec`. -/
theorem C8_diffusion_two_passes {R : Type} (E : Ext R) (n : Nat) (g : Grid)
    (hn : 1 ≤ n) (hlen : g.tiles.length = g.width * g.height) :
    cycle_fluids n E g = cycle_fluids_spec E g := by
  have hdiffuse : (fun (gg : Grid) (x y : Nat) =>
      let t := hex gg x y
      let s1 := finRange6.foldl
        (fun s i =>
          let nbc := neighborCoord gg.width gg.height x y i
          let n := hex gg nbc.1 nbc.2
          E.diffuse_from s n.solution
            (if n.cell.isSome then DiffusionType.FlatSignals
             else DiffusionType.DynSignals)
            ((i.val + 3) % 6))
        t.solution
      { t with solution := s1 }) = diffuseTile E := by
    funext gg x y
    simp only [diffuseTile]
    have hfun : (fun (s : Solution) (i : Fin 6) =>
        E.diffuse_from s
          (hex gg (neighborCoord gg.width gg.height x y i).1
            (neighborCoord gg.width gg.height x y i).2).solution
          (if (hex gg (neighborCoord gg.width gg.height x y i).1
            (neighborCoord gg.width gg.height x y i).2).cell.isSome then
              DiffusionType.FlatSignals
           else DiffusionType.DynSignals)
          ((i.val + 3) % 6))
        = (fun (s : Solution) (i : Fin 6) =>
        E.diffuse_from s
          (hex gg (neighborCoord gg.width gg.height x y i).1
            (neighborCoord gg.width gg.height x y i).2).solution
          (match (hex gg (neighborCoord gg.width gg.height x y i).1
            (neighborCoord gg.width gg.height x y i).2).cell with
           | some _ => DiffusionType.FlatSignals
           | none => DiffusionType.DynSignals)
          ((i.val + 3) % 6)) := by
      funext s i
      cases (hex gg (neighborCoord gg.width gg.height x y i).1
        (neighborCoord gg.width gg.height x y i).2).cell <;> rfl
    rw [hfun]
  unfold cycle_fluids cycle_fluids_spec
  rw [hdiffuse]
  rw [runShards_eq n g (diffuseTile E) hn hlen]
  rw [runShards_eq n (mapTiles g (diffuseTile E)) (endCycleTile E) hn
    (mapTiles_length g (diffuseTile E))]
  rfl

/-- Witness for `C8_diffusion_two_passes` at n = 2 workers on `gC2`. -/
theorem C8_diffusion_two_passes_witness :
    (1 ≤ 2 ∧ gC2.tiles.length = gC2.width * gC2.height) ∧
      cycle_fluids 2 unitExt gC2 = cycle_fluids_spec unitExt gC2 :=
  ⟨by decide, C8_diffusion_two_passes unitExt 2 gC2 (by decide) (by decide)⟩

/-! ## Preservation of grid dimensions and tile count across one tick. -/

@[simp] theorem runShards_width (n : Nat) (g : Grid) (f : Grid → Nat → Nat → Hex) :
    (runShards n g f).width = g.width := rfl

@[simp] theorem runShards_height (n : Nat) (g : Grid) (f : Grid → Nat → Nat → Hex) :
    (runShards n g f).height = g.height := rfl

theorem runShards_length (n : Nat) (g : Grid) (f : Grid → Nat → Nat → Hex) :
    (runShards n g f).tiles.length = g.tiles.length := by
  simp only [runShards]
  exact foldl_set_length _ _ _ _

theorem wf_runShards (n : Nat) (g : Grid) (f : Grid → Nat → Nat → Hex)
    (hwf : WfGrid g) : WfGrid (runShards n g f) :=
  ⟨by rw [runShards_length]; exact hwf.1, hwf.2.1, hwf.2.2⟩

theorem wf_mapTiles (g : Grid) (f : Grid → Nat → Nat → Hex)
    (hwf : WfGrid g) : WfGrid (mapTiles g f) :=
  ⟨mapTiles_length g f, hwf.2.1, hwf.2.2⟩

theorem applyStepAction_preserves {R : Type} (E : Ext R) (g : Grid) (rng : R)
    (x y : Nat) (gr : Grid × R)
    (h : applyStepAction E g rng x y = some gr) :
    gr.1.width = g.width ∧ gr.1.height = g.height ∧
      gr.1.tiles.length = g.tiles.length := by
  unfold applyStepAction at h
  dsimp only at h
  repeat' split at h
  all_goals first
    | (rw [Option.some.injEq] at h
       subst h
       exact ⟨by simp, by simp, by simp⟩)
    | exact absurd h (by simp)

theorem applyStep_preserves {R : Type} (E : Ext R) (g : Grid) (rng : R)
    (x y : Nat) (gr : Grid × R) (h : applyStep E g rng x y = some gr) :
    gr.1.width = g.width ∧ gr.1.height = g.height ∧
      gr.1.tiles.length = g.tiles.length := by
  unfold applyStep at h
  cases ha : applyStepAction E g rng x y with
  | none => rw [ha] at h; exact absurd h (by simp)
  | some gr2 =>
    rw [ha] at h
    rw [Option.some.injEq] at h
    subst h
    have hp := applyStepAction_preserves E g rng x y gr2 ha
    exact ⟨by simp [hp.1], by simp [hp.2.1], by simp [hp.2.2]⟩

theorem applyFold_none {R : Type} (E : Ext R) (L : List (Nat × Nat)) :
    (L.foldl (fun acc p => match acc with
      | none => none
      | some gr => applyStep E gr.1 gr.2 p.1 p.2) none) = none := by
  induction L with
  | nil => rfl
  | cons p L ih =>
    simp only [List.foldl_cons]
    exact ih

theorem applyFold_preserves {R : Type} (E : Ext R) (L : List (Nat × Nat)) :
    ∀ (g : Grid) (rng : R) (gr : Grid × R),
      (L.foldl (fun acc p => match acc with
        | none => none
        | some gr => applyStep E gr.1 gr.2 p.1 p.2) (some (g, rng)))
          = some gr →
      gr.1.width = g.width ∧ gr.1.height = g.height ∧
        gr.1.tiles.length = g.tiles.length := by
  induction L with
  | nil =>
    intro g rng gr h
    rw [List.foldl_nil, Option.some.injEq] at h
    subst h
    exact ⟨rfl, rfl, rfl⟩
  | cons p L ih =>
    intro g rng gr h
    simp only [List.foldl_cons] at h
    cases hstep : applyStep E g rng p.1 p.2 with
    | none =>
      rw [hstep] at h
      rw [applyFold_none] at h
      exact absurd h (by simp)
    | some gr2 =>
      rw [hstep] at h
      have hp1 := applyStep_preserves E g rng p.1 p.2 gr2 hstep
      have hp2 := ih gr2.1 gr2.2 gr h
      exact ⟨hp2.1.trans hp1.1, hp2.2.1.trans hp1.2.1, hp2.2.2.trans hp1.2.2⟩

theorem applyPass_preserves {R : Type} (E : Ext R) (g : Grid) (rng : R)
    (gr : Grid × R) (h : applyPass E g rng = some gr) :
    gr.1.width = g.width ∧ gr.1.height = g.height ∧
      gr.1.tiles.length = g.tiles.length := by
  unfold applyPass at h
  exact applyFold_preserves E (applyOrder g.width g.height) g rng gr h

theorem spawnOnce_preserves {R : Type} (E : Ext R) (gr : Grid × R) :
    (spawnOnce E gr).1.width = gr.1.width ∧
      (spawnOnce E gr).1.height = gr.1.height ∧
      (spawnOnce E gr).1.tiles.length = gr.1.tiles.length := by
  unfold spawnOnce
  dsimp only
  split
  · exact ⟨rfl, rfl, by simp⟩
  · exact ⟨rfl, rfl, rfl⟩

theorem spawnFold_preserves {R : Type} (E : Ext R) (L : List Nat) :
    ∀ gr : Grid × R,
      (L.foldl (fun gr _ => spawnOnce E gr) gr).1.width = gr.1.width ∧
      (L.foldl (fun gr _ => spawnOnce E gr) gr).1.height = gr.1.height ∧
      (L.foldl (fun gr _ => spawnOnce E gr) gr).1.tiles.length
        = gr.1.tiles.length := by
  induction L with
  | nil => intro gr; exact ⟨rfl, rfl, rfl⟩
  | cons a L ih =>
    intro gr
    simp only [List.foldl_cons]
    have h1 := spawnOnce_preserves E gr
    have h2 := ih (spawnOnce E gr)
    exact ⟨h2.1.trans h1.1, h2.2.1.trans h1.2.1, h2.2.2.trans h1.2.2⟩

theorem cycle_spawn_preserves {R : Type} (E : Ext R) (g : Grid) (rng : R) :
    (cycle_spawn E g rng).1.width = g.width ∧
      (cycle_spawn E g rng).1.height = g.height ∧
      (cycle_spawn E g rng).1.tiles.length = g.tiles.length := by
  unfold cycle_spawn
  split
  · exact spawnFold_preserves E _ (g, rng)
  · dsimp only
    split
    · exact spawnOnce_preserves E (g, _)
    · exact ⟨rfl, rfl, rfl⟩

theorem wf_of_preserved {g0 g1 : Grid}
    (hp : g1.width = g0.width ∧ g1.height = g0.height ∧
      g1.tiles.length = g0.tiles.length)
    (hwf : WfGrid g0) : WfGrid g1 :=
  ⟨by rw [hp.2.2, hp.1, hp.2.1]; exact hwf.1,
   by rw [hp.1]; exact hwf.2.1,
   by rw [hp.2.1]; exact hwf.2.2⟩

theorem wf_cycle_cells {R : Type} (n : Nat) (E : Ext R) (g : Grid)
    (hwf : WfGrid g) : WfGrid (cycle_cells n E g) := by
  unfold cycle_cells
  exact wf_runShards n g _ hwf

theorem wf_gatherPhase {R : Type} (n : Nat) (E : Ext R) (g : Grid)
    (hwf : WfGrid g) : WfGrid (gatherPhase n E g) := by
  unfold gatherPhase
  exact wf_runShards n g _ hwf

theorem wf_cycle_decisions {R : Type} (n : Nat) (E : Ext R) (g : Grid)
    (rng : R) (gr : Grid × R) (h : cycle_decisions n E g rng = some gr)
    (hwf : WfGrid g) : WfGrid gr.1 := by
  unfold cycle_decisions at h
  have hg := wf_gatherPhase n E g hwf
  exact wf_of_preserved (applyPass_preserves E _ rng gr h) hg

theorem wf_cycle_fluids {R : Type} (n : Nat) (E : Ext R) (g : Grid)
    (hwf : WfGrid g) : WfGrid (cycle_fluids n E g) := by
  unfold cycle_fluids
  exact wf_runShards n _ _ (wf_runShards n g _ hwf)

theorem wf_cycle_death {R : Type} (n : Nat) (E : Ext R) (g : Grid)
    (hwf : WfGrid g) : WfGrid (cycle_death n E g) := by
  unfold cycle_death
  exact wf_runShards n g _ hwf

theorem cycle_indep {R : Type} (E : Ext R) (n1 n2 : Nat) (g : Grid)
    (rng : R) (h1 : 1 ≤ n1) (h2 : 1 ≤ n2) (hwf : WfGrid g) :
    cycle n1 E g rng = cycle n2 E g rng := by
  unfold cycle
  dsimp only
  set sr := if g.spawning then cycle_spawn E g rng else (g, rng) with hsr
  have hwfs : WfGrid sr.1 := by
    rw [hsr]
    split
    · exact wf_of_preserved (cycle_spawn_preserves E g rng) hwf
    · exact hwf
  have hcells : cycle_cells n1 E sr.1 = cycle_cells n2 E sr.1 := by
    unfold cycle_cells
    rw [runShards_eq n1 _ _ h1 hwfs.1, runShards_eq n2 _ _ h2 hwfs.1]
  have hwfc : WfGrid (cycle_cells n2 E sr.1) := wf_cycle_cells n2 E sr.1 hwfs
  have hdec : cycle_decisions n1 E (cycle_cells n1 E sr.1) sr.2
      = cycle_decisions n2 E (cycle_cells n2 E sr.1) sr.2 := by
    rw [hcells]
    unfold cycle_decisions gatherPhase
    rw [runShards_eq n1 _ _ h1 hwfc.1, runShards_eq n2 _ _ h2 hwfc.1]
  rw [hdec]
  cases hd2 : cycle_decisions n2 E (cycle_cells n2 E sr.1) sr.2 with
  | none => rfl
  | some gr2 =>
    have hwfg : WfGrid gr2.1 := wf_cycle_decisions n2 E _ sr.2 gr2 hd2 hwfc
    have hfl : cycle_fluids n1 E gr2.1 = cycle_fluids n2 E gr2.1 := by
      unfold cycle_fluids
      rw [runShards_eq n1 gr2.1 _ h1 hwfg.1, runShards_eq n2 gr2.1 _ h2 hwfg.1]
      rw [runShards_eq n1 _ _ h1 (mapTiles_length _ _),
        runShards_eq n2 _ _ h2 (mapTiles_length _ _)]
    have hwff : WfGrid (cycle_fluids n2 E gr2.1) := wf_cycle_fluids n2 E _ hwfg
    have hdth : cycle_death n1 E (cycle_fluids n2 E gr2.1)
        = cycle_death n2 E (cycle_fluids n2 E gr2.1) := by
      unfold cycle_death
      rw [runShards_eq n1 _ _ h1 hwff.1, runShards_eq n2 _ _ h2 hwff.1]
    dsimp only
    rw [hfl, hdth]

theorem cycle_wf {R : Type} (n : Nat) (E : Ext R) (g : Grid) (rng : R)
    (gr : Grid × R) (h : cycle n E g rng = some gr) (hwf : WfGrid g) :
    WfGrid gr.1 := by
  unfold cycle at h
  dsimp only at h
  set sr := if g.spawning then cycle_spawn E g rng else (g, rng) with hsr
  have hwfs : WfGrid sr.1 := by
    rw [hsr]
    split
    · exact wf_of_preserved (cycle_spawn_preserves E g rng) hwf
    · exact hwf
  have hwfc : WfGrid (cycle_cells n E sr.1) := wf_cycle_cells n E sr.1 hwfs
  cases hd : cycle_decisions n E (cycle_cells n E sr.1) sr.2 with
  | none => rw [hd] at h; exact absurd h (by simp)
  | some gr2 =>
    rw [hd] at h
    rw [Option.some.injEq] at h
    subst h
    have hwfg : WfGrid gr2.1 := wf_cycle_decisions n E _ sr.2 gr2 hd hwfc
    exact wf_cycle_death n E _ (wf_cycle_fluids n E _ hwfg)

theorem runTicks_indep {R : Type} (E : Ext R) (N n1 n2 : Nat)
    (h1 : 1 ≤ n1) (h2 : 1 ≤ n2) :
    ∀ (g : Grid) (rng : R), WfGrid g →
      runTicks n1 E N g rng = runTicks n2 E N g rng := by
  induction N with
  | zero => intro g rng hwf; rfl
  | succ N1 ih =>
    intro g rng hwf
    unfold runTicks
    rw [cycle_indep E n1 n2 g rng h1 h2 hwf]
    cases hc : cycle n2 E g rng with
    | none => rfl
    | some gr => exact ih gr.1 gr.2 (cycle_wf n2 E g rng gr hc hwf)

/-- Claim C9: determinism of the tick loop — two runs of `N` ticks from an
identical initial grid and identical RNG state produce identical results,
for any (positive) worker counts: the per-tick step is a function of the
grid and RNG state alone, and the row-sharded parallel phases are
shard-count independent (each worker writes only its own tiles, computed
from the phase-start snapshot). -/
theorem C9_determinism {R : Type} (E : Ext R) (N n1 n2 : Nat)
    (gA gB : Grid) (rngA rngB : R) (hg : gA = gB) (hr : rngA = rngB)
    (h1 : 1 ≤ n1) (h2 : 1 ≤ n2) (hwf : WfGrid gA) :
    runTicks n1 E N gA rngA = runTicks n2 E N gB rngB := by
  subst hg
  subst hr
  exact runTicks_indep E N n1 n2 h1 h2 gA rngA hwf

/-- Witness for `C9_determinism`: one tick on `gC7` with 1 vs 3 workers. -/
theorem C9_determinism_witness :
    (WfGrid gC7 ∧ 1 ≤ 1 ∧ 1 ≤ 3) ∧
      runTicks 1 unitExt 1 gC7 () = runTicks 3 unitExt 1 gC7 () :=
  ⟨⟨by decide, by decide, by decide⟩,
   C9_determinism unitExt 1 1 3 gC7 gC7 () () rfl rfl (by decide) (by decide)
     (by decide)⟩

/-! ## Field-level effects of tile writes (index-based, no bounds
assumptions: out-of-range writes are no-ops; an aliased index denotes the
same tile). -/

theorem list_getD_set_oob {α : Type} (l : List α) (i j : Nat) (v d : α)
    (h : l.length ≤ i) : (l.set i v).getD j d = l.getD j d := by
  rw [List.set_eq_of_length_le h]

theorem hex_setHex_cases (g : Grid) (x y : Nat) (t : Hex) (a b : Nat) :
    hex (setHex g x y t) a b =
      if x + y * g.width = a + b * g.width ∧ x + y * g.width < g.tiles.length
        then t else hex g a b := by
  unfold hex setHex
  dsimp only
  by_cases hidx : x + y * g.width = a + b * g.width
  · by_cases hlt : x + y * g.width < g.tiles.length
    · rw [if_pos ⟨hidx, hlt⟩, ← hidx]
      exact list_getD_set_self _ _ _ _ hlt
    · rw [if_neg (by intro hcon; exact hlt hcon.2)]
      rw [list_getD_set_oob _ _ _ _ _ (by omega)]
  · rw [if_neg (by intro hcon; exact hidx hcon.1)]
    rw [list_getD_set_ne _ _ _ _ _ hidx]

theorem hex_aliased (g : Grid) (x y a b : Nat)
    (hidx : x + y * g.width = a + b * g.width) : hex g x y = hex g a b := by
  unfold hex
  rw [hidx]

theorem hex_setCell_cell (g : Grid) (x y : Nat) (v : Option Cell) (a b : Nat) :
    (hex (setCell g x y v) a b).cell =
      if x + y * g.width = a + b * g.width ∧ x + y * g.width < g.tiles.length
        then v else (hex g a b).cell := by
  unfold setCell
  rw [hex_setHex_cases]
  split_ifs with hc
  · rfl
  · rfl

theorem hex_setCell_delta (g : Grid) (x y : Nat) (v : Option Cell) (a b : Nat) :
    (hex (setCell g x y v) a b).delta = (hex g a b).delta := by
  unfold setCell
  rw [hex_setHex_cases]
  split_ifs with hc
  · rw [hex_aliased g x y a b hc.1]
  · rfl

theorem hex_setDecision_cell (g : Grid) (x y : Nat) (d : Option Decision)
    (a b : Nat) :
    (hex (setDecision g x y d) a b).cell = (hex g a b).cell := by
  unfold setDecision
  rw [hex_setHex_cases]
  split_ifs with hc
  · rw [hex_aliased g x y a b hc.1]
  · rfl

theorem hex_setDecision_delta (g : Grid) (x y : Nat) (d : Option Decision)
    (a b : Nat) :
    (hex (setDecision g x y d) a b).delta = (hex g a b).delta := by
  unfold setDecision
  rw [hex_setHex_cases]
  split_ifs with hc
  · rw [hex_aliased g x y a b hc.1]
  · rfl

theorem applyOrder_nodup (w h : Nat) : (applyOrder w h).Nodup := by
  unfold applyOrder
  rw [List.nodup_flatMap]
  constructor
  · intro x hx
    exact List.Nodup.map
      (fun a b hab => by simpa using ((Prod.mk.injEq _ _ _ _).mp hab).2)
      (List.nodup_range h)
  · apply List.Pairwise.imp ?_ (List.nodup_range w)
    intro a b hne p hp1 hp2
    rw [List.mem_map] at hp1 hp2
    obtain ⟨y1, hy1, he1⟩ := hp1
    obtain ⟨y2, hy2, he2⟩ := hp2
    apply hne
    have h1 : p.1 = a := by rw [← he1]
    have h2 : p.1 = b := by rw [← he2]
    rw [← h1, ← h2]

theorem applyOrder_mem (w h : Nat) (x y : Nat) :
    (x, y) ∈ applyOrder w h ↔ x < w ∧ y < h := by
  unfold applyOrder
  rw [List.mem_flatMap]
  constructor
  · rintro ⟨a, ha, hmem⟩
    rw [List.mem_map] at hmem
    obtain ⟨b, hb, he⟩ := hmem
    have hab : a = x ∧ b = y := by simpa [Prod.ext_iff] using he
    rw [List.mem_range] at ha
    rw [List.mem_range] at hb
    omega
  · rintro ⟨hx, hy⟩
    exact ⟨x, List.mem_range.mpr hx, List.mem_map.mpr
      ⟨y, List.mem_range.mpr hy, rfl⟩⟩

/-! ## Characterizing the gather step: what a recorded attempt implies
about the snapshot grid. -/

theorem gatherLoop_cell_none (g : Grid) (x y : Nat) (l : List (Fin 6)) :
    ∀ t : Hex, t.cell = none → (gatherLoop g x y l t).cell = none := by
  induction l with
  | nil => intro t hc; exact hc
  | cons i l ih =>
    intro t hc
    unfold gatherLoop
    dsimp only
    cases hdec : (hex g (neighborCoord g.width g.height x y i).1
        (neighborCoord g.width g.height x y i).2).decision with
    | none => exact ih t hc
    | some dec =>
      obtain ⟨ch, cf⟩ := dec
      cases ch with
      | Move d =>
        dsimp only
        split
        · split
          · exact hc
          · exact ih _ hc
        · exact ih t hc
      | Divide md sd =>
        dsimp only
        split
        · split
          · exact hc
          · exact ih _ hc
        · exact ih t hc
      | Explode way =>
        rw [hc]
        exact ih t hc
      | Suicide =>
        rw [hc]
        exact ih t hc

theorem gatherLoop_mov_spec (g : Grid) (x y : Nat) (l : List (Fin 6)) :
    ∀ (t : Hex) (s : Nat × Nat),
      s ∈ (gatherLoop g x y l t).delta.movement_attempts →
      s ∈ t.delta.movement_attempts ∨
        ∃ i : Fin 6, i ∈ l ∧ ∃ cf : Fin 6 → Rat,
          (hex g (neighborCoord g.width g.height x y i).1
            (neighborCoord g.width g.height x y i).2).decision
            = some { choice := Choice.Move (facingAt i), coefficients := cf } ∧
          s = in_direction x y g.width g.height (facingAt i).flip := by
  induction l with
  | nil => intro t s hs; exact Or.inl hs
  | cons i l ih =>
    intro t s hs
    unfold gatherLoop at hs
    dsimp only at hs
    revert hs
    cases hdec : (hex g (neighborCoord g.width g.height x y i).1
        (neighborCoord g.width g.height x y i).2).decision with
    | none =>
      intro hs
      dsimp only at hs
      rcases ih t s hs with h | ⟨j, hj, cf, hd, hsc⟩
      · exact Or.inl h
      · exact Or.inr ⟨j, List.mem_cons_of_mem _ hj, cf, hd, hsc⟩
    | some dec =>
      obtain ⟨ch, cf0⟩ := dec
      cases ch with
      | Move d =>
        intro hs
        dsimp only at hs
        by_cases hif : facingAt i = d
        · rw [if_pos hif] at hs
          rw [← hif] at hdec
          split at hs
          · rcases List.mem_append.mp hs with h | h
            · exact Or.inl h
            · exact Or.inr ⟨i, List.mem_cons_self _ _, cf0, hdec,
                List.mem_singleton.mp h⟩
          · rcases ih _ s hs with h | ⟨j, hj, cf, hd, hsc⟩
            · rcases List.mem_append.mp h with h1 | h1
              · exact Or.inl h1
              · exact Or.inr ⟨i, List.mem_cons_self _ _, cf0, hdec,
                  List.mem_singleton.mp h1⟩
            · exact Or.inr ⟨j, List.mem_cons_of_mem _ hj, cf, hd, hsc⟩
        · rw [if_neg hif] at hs
          rcases ih t s hs with h | ⟨j, hj, cf, hd, hsc⟩
          · exact Or.inl h
          · exact Or.inr ⟨j, List.mem_cons_of_mem _ hj, cf, hd, hsc⟩
      | Divide md sd =>
        intro hs
        dsimp only at hs
        by_cases hif : facingAt i = sd
        · rw [if_pos hif] at hs
          split at hs
          · exact Or.inl hs
          · rcases ih _ s hs with h | ⟨j, hj, cf, hd, hsc⟩
            · exact Or.inl h
            · exact Or.inr ⟨j, List.mem_cons_of_mem _ hj, cf, hd, hsc⟩
        · rw [if_neg hif] at hs
          rcases ih t s hs with h | ⟨j, hj, cf, hd, hsc⟩
          · exact Or.inl h
          · exact Or.inr ⟨j, List.mem_cons_of_mem _ hj, cf, hd, hsc⟩
      | Explode way =>
        revert hdec
        cases hcell : t.cell with
        | none =>
          intro hdec hs
          dsimp only at hs
          rcases ih t s hs with h | ⟨j, hj, cf, hd, hsc⟩
          · exact Or.inl h
          · exact Or.inr ⟨j, List.mem_cons_of_mem _ hj, cf, hd, hsc⟩
        | some c =>
          intro hdec hs
          dsimp only at hs
          split at hs
          · rcases ih _ s hs with h | ⟨j, hj, cf, hd, hsc⟩
            · exact Or.inl h
            · exact Or.inr ⟨j, List.mem_cons_of_mem _ hj, cf, hd, hsc⟩
          · rcases ih t s hs with h | ⟨j, hj, cf, hd, hsc⟩
            · exact Or.inl h
            · exact Or.inr ⟨j, List.mem_cons_of_mem _ hj, cf, hd, hsc⟩
      | Suicide =>
        revert hdec
        cases hcell : t.cell with
        | none =>
          intro hdec hs
          dsimp only at hs
          rcases ih t s hs with h | ⟨j, hj, cf, hd, hsc⟩
          · exact Or.inl h
          · exact Or.inr ⟨j, List.mem_cons_of_mem _ hj, cf, hd, hsc⟩
        | some c =>
          intro hdec hs
          dsimp only at hs
          rcases ih _ s hs with h | ⟨j, hj, cf, hd, hsc⟩
          · exact Or.inl h
          · exact Or.inr ⟨j, List.mem_cons_of_mem _ hj, cf, hd, hsc⟩

theorem gatherLoop_mate_spec (g : Grid) (x y : Nat) (l : List (Fin 6)) :
    ∀ (t : Hex) (m : Mate),
      m ∈ (gatherLoop g x y l t).delta.mate_attempts →
      m ∈ t.delta.mate_attempts ∨
        ∃ i : Fin 6, i ∈ l ∧ ∃ md : Direction, ∃ cf : Fin 6 → Rat,
          (hex g (neighborCoord g.width g.height x y i).1
            (neighborCoord g.width g.height x y i).2).decision
            = some { choice := Choice.Divide md (facingAt i),
                     coefficients := cf } ∧
          m.source = in_direction x y g.width g.height (facingAt i).flip ∧
          m.mate = in_direction m.source.1 m.source.2 g.width g.height md := by
  induction l with
  | nil => intro t m hs; exact Or.inl hs
  | cons i l ih =>
    intro t m hs
    unfold gatherLoop at hs
    dsimp only at hs
    revert hs
    cases hdec : (hex g (neighborCoord g.width g.height x y i).1
        (neighborCoord g.width g.height x y i).2).decision with
    | none =>
      intro hs
      dsimp only at hs
      rcases ih t m hs with h | ⟨j, hj, md, cf, hd, hsc, hmt⟩
      · exact Or.inl h
      · exact Or.inr ⟨j, List.mem_cons_of_mem _ hj, md, cf, hd, hsc, hmt⟩
    | some dec =>
      obtain ⟨ch, cf0⟩ := dec
      cases ch with
      | Move d =>
        intro hs
        dsimp only at hs
        by_cases hif : facingAt i = d
        · rw [if_pos hif] at hs
          split at hs
          · exact Or.inl hs
          · rcases ih _ m hs with h | ⟨j, hj, md, cf, hd, hsc, hmt⟩
            · exact Or.inl h
            · exact Or.inr ⟨j, List.mem_cons_of_mem _ hj, md, cf, hd, hsc, hmt⟩
        · rw [if_neg hif] at hs
          rcases ih t m hs with h | ⟨j, hj, md, cf, hd, hsc, hmt⟩
          · exact Or.inl h
          · exact Or.inr ⟨j, List.mem_cons_of_mem _ hj, md, cf, hd, hsc, hmt⟩
      | Divide md0 sd =>
        intro hs
        dsimp only at hs
        by_cases hif : facingAt i = sd
        · rw [if_pos hif] at hs
          rw [← hif] at hdec
          split at hs
          · rcases List.mem_append.mp hs with h | h
            · exact Or.inl h
            · have hm := List.mem_singleton.mp h
              subst hm
              exact Or.inr ⟨i, List.mem_cons_self _ _, md0, cf0, hdec,
                rfl, rfl⟩
          · rcases ih _ m hs with h | ⟨j, hj, md, cf, hd, hsc, hmt⟩
            · rcases List.mem_append.mp h with h1 | h1
              · exact Or.inl h1
              · have hm := List.mem_singleton.mp h1
                subst hm
                exact Or.inr ⟨i, List.mem_cons_self _ _, md0, cf0, hdec,
                  rfl, rfl⟩
            · exact Or.inr ⟨j, List.mem_cons_of_mem _ hj, md, cf, hd, hsc, hmt⟩
        · rw [if_neg hif] at hs
          rcases ih t m hs with h | ⟨j, hj, md, cf, hd, hsc, hmt⟩
          · exact Or.inl h
          · exact Or.inr ⟨j, List.mem_cons_of_mem _ hj, md, cf, hd, hsc, hmt⟩
      | Explode way =>
        revert hdec
        cases hcell : t.cell with
        | none =>
          intro hdec hs
          dsimp only at hs
          rcases ih t m hs with h | ⟨j, hj, md, cf, hd, hsc, hmt⟩
          · exact Or.inl h
          · exact Or.inr ⟨j, List.mem_cons_of_mem _ hj, md, cf, hd, hsc, hmt⟩
        | some c =>
          intro hdec hs
          dsimp only at hs
          split at hs
          · rcases ih _ m hs with h | ⟨j, hj, md, cf, hd, hsc, hmt⟩
            · exact Or.inl h
            · exact Or.inr ⟨j, List.mem_cons_of_mem _ hj, md, cf, hd, hsc, hmt⟩
          · rcases ih t m hs with h | ⟨j, hj, md, cf, hd, hsc, hmt⟩
            · exact Or.inl h
            · exact Or.inr ⟨j, List.mem_cons_of_mem _ hj, md, cf, hd, hsc, hmt⟩
      | Suicide =>
        revert hdec
        cases hcell : t.cell with
        | none =>
          intro hdec hs
          dsimp only at hs
          rcases ih t m hs with h | ⟨j, hj, md, cf, hd, hsc, hmt⟩
          · exact Or.inl h
          · exact Or.inr ⟨j, List.mem_cons_of_mem _ hj, md, cf, hd, hsc, hmt⟩
        | some c =>
          intro hdec hs
          dsimp only at hs
          rcases ih _ m hs with h | ⟨j, hj, md, cf, hd, hsc, hmt⟩
          · exact Or.inl h
          · exact Or.inr ⟨j, List.mem_cons_of_mem _ hj, md, cf, hd, hsc, hmt⟩

theorem gatherTile_cell {R : Type} (E : Ext R) (g : Grid) (x y : Nat) :
    (gatherTile E g x y).cell = (hex g x y).cell := by
  unfold gatherTile
  dsimp only
  split
  · next hc =>
    rw [hc]
    apply gatherLoop_cell_none
    rfl
  · rfl

theorem gatherTile_mov_char {R : Type} (E : Ext R) (g : Grid) (x y : Nat)
    (s : Nat × Nat)
    (hs : s ∈ (gatherTile E g x y).delta.movement_attempts) :
    (hex g x y).cell = none ∧
      ∃ i : Fin 6, ∃ cf : Fin 6 → Rat,
        (hex g (neighborCoord g.width g.height x y i).1
          (neighborCoord g.width g.height x y i).2).decision
          = some { choice := Choice.Move (facingAt i), coefficients := cf } ∧
        s = in_direction x y g.width g.height (facingAt i).flip := by
  unfold gatherTile at hs
  dsimp only at hs
  revert hs
  split
  · next hc =>
    intro hs
    rcases gatherLoop_mov_spec g x y finRange6 _ s hs with h | ⟨i, hi, cf, hd, hsc⟩
    · exact absurd h (List.not_mem_nil s)
    · exact ⟨hc, i, cf, hd, hsc⟩
  · intro hs
    exact absurd hs (List.not_mem_nil s)

theorem gatherTile_mate_char {R : Type} (E : Ext R) (g : Grid) (x y : Nat)
    (m : Mate) (hs : m ∈ (gatherTile E g x y).delta.mate_attempts) :
    (hex g x y).cell = none ∧
      ∃ i : Fin 6, ∃ md : Direction, ∃ cf : Fin 6 → Rat,
        (hex g (neighborCoord g.width g.height x y i).1
          (neighborCoord g.width g.height x y i).2).decision
          = some { choice := Choice.Divide md (facingAt i),
                   coefficients := cf } ∧
        m.source = in_direction x y g.width g.height (facingAt i).flip ∧
        m.mate = in_direction m.source.1 m.source.2 g.width g.height md := by
  unfold gatherTile at hs
  dsimp only at hs
  revert hs
  split
  · next hc =>
    intro hs
    rcases gatherLoop_mate_spec g x y finRange6 _ m hs with
      h | ⟨i, hi, md, cf, hd, hsc, hmt⟩
    · exact absurd h (List.not_mem_nil m)
    · exact ⟨hc, i, md, cf, hd, hsc, hmt⟩
  · intro hs
    exact absurd hs (List.not_mem_nil m)

/-! ## The recorded source coordinate is the scanned neighbor. -/

theorem add_self_mod (a n : Nat) (ha : a < n) : (n + a) % n = a := by
  rw [Nat.add_comm n a, Nat.add_mod_right, Nat.mod_eq_of_lt ha]

theorem facingAt_inj : ∀ i j : Fin 6, facingAt i = facingAt j → i = j := by
  decide

theorem in_direction_eq_neighborCoord (w h x y : Nat) (hx : x < w)
    (hy : y < h) (i : Fin 6) :
    in_direction x y w h ((facingAt i).flip) = neighborCoord w h x y i := by
  have hw : 1 ≤ w := by omega
  have hh : 1 ≤ h := by omega
  rcases i with ⟨iv, hiv⟩
  by_cases hy2 : y % 2 = 0 <;>
    interval_cases iv <;>
      simp only [facingAt, Direction.flip] <;>
      rw [in_direction, neighborCoord] <;>
      simp [Direction.delta, hy2, Prod.ext_iff] <;>
      constructor <;>
      first
        | (congr 1 <;> omega)
        | (conv_rhs => rw [← add_self_mod x w hx]
           congr 1 <;> omega)
        | (conv_rhs => rw [← add_self_mod y h hy]
           congr 1 <;> omega)

theorem dec_mod_inj (a1 a2 n : Nat) (h1 : a1 < n) (h2 : a2 < n) (hn : 1 ≤ n)
    (he : (a1 + n - 1) % n = (a2 + n - 1) % n) : a1 = a2 := by
  rw [mod_dec a1 n h1 hn, mod_dec a2 n h2 hn] at he
  split_ifs at he <;> omega

theorem inc_mod_inj (a1 a2 n : Nat) (h1 : a1 < n) (h2 : a2 < n)
    (he : (a1 + n + 1) % n = (a2 + n + 1) % n) : a1 = a2 := by
  rw [mod_inc a1 n h1, mod_inc a2 n h2] at he
  split_ifs at he <;> omega

theorem self_mod_inj (a1 a2 n : Nat) (h1 : a1 < n) (h2 : a2 < n)
    (he : (n + a1) % n = (n + a2) % n) : a1 = a2 := by
  rw [add_self_mod a1 n h1, add_self_mod a2 n h2] at he
  exact he

/-- Each single direction step on the torus is injective on in-range
coordinates (for any height: source `in_direction` adds a fixed vertical
offset, wrapped, and a parity-determined horizontal offset, wrapped). -/
theorem in_direction_inj (w h : Nat) (d : Direction) (x1 y1 x2 y2 : Nat)
    (hx1 : x1 < w) (hy1 : y1 < h) (hx2 : x2 < w) (hy2 : y2 < h)
    (heq : in_direction x1 y1 w h d = in_direction x2 y2 w h d) :
    x1 = x2 ∧ y1 = y2 := by
  have hw : 1 ≤ w := by omega
  have hh : 1 ≤ h := by omega
  unfold in_direction at heq
  rw [Prod.mk.injEq] at heq
  obtain ⟨heqx, heqy⟩ := heq
  have hparx : ∀ b : Bool, y1 = y2 → x1 = x2 ∧ y1 = y2 := fun _ hy12 => by
    subst hy12
    cases hb : (y1 % 2 == 0) <;> rw [hb] at heqx <;>
      cases d <;> simp only [Direction.delta, reduceIte, Bool.false_eq_true,
        if_false, if_true] at heqx <;>
      first
        | exact ⟨self_mod_inj x1 x2 w hx1 hx2 (by
            rw [show (((w + x1 : Nat) : Int) + 0).toNat = w + x1 by omega,
              show (((w + x2 : Nat) : Int) + 0).toNat = w + x2 by omega]
              at heqx
            exact heqx), rfl⟩
        | exact ⟨inc_mod_inj x1 x2 w hx1 hx2 (by
            rw [show (((w + x1 : Nat) : Int) + 1).toNat = x1 + w + 1 by omega,
              show (((w + x2 : Nat) : Int) + 1).toNat = x2 + w + 1 by omega]
              at heqx
            exact heqx), rfl⟩
        | exact ⟨dec_mod_inj x1 x2 w hx1 hx2 hw (by
            rw [show (((w + x1 : Nat) : Int) + -1).toNat = x1 + w - 1 by omega,
              show (((w + x2 : Nat) : Int) + -1).toNat = x2 + w - 1 by omega]
              at heqx
            exact heqx), rfl⟩
  have hy12 : y1 = y2 := by
    have hdy : ∀ y : Nat, (Direction.delta d (y % 2 == 0)).2
        = (Direction.delta d true).2 := by
      intro y
      cases (y % 2 == 0) <;> cases d <;> rfl
    rw [hdy y1, hdy y2] at heqy
    cases d <;> simp only [Direction.delta, reduceIte] at heqy <;>
      first
        | exact self_mod_inj y1 y2 h hy1 hy2 (by
            rw [show (((h + y1 : Nat) : Int) + 0).toNat = h + y1 by omega,
              show (((h + y2 : Nat) : Int) + 0).toNat = h + y2 by omega]
              at heqy
            exact heqy)
        | exact inc_mod_inj y1 y2 h hy1 hy2 (by
            rw [show (((h + y1 : Nat) : Int) + 1).toNat = y1 + h + 1 by omega,
              show (((h + y2 : Nat) : Int) + 1).toNat = y2 + h + 1 by omega]
              at heqy
            exact heqy)
        | exact dec_mod_inj y1 y2 h hy1 hy2 hh (by
            rw [show (((h + y1 : Nat) : Int) + -1).toNat = y1 + h - 1 by omega,
              show (((h + y2 : Nat) : Int) + -1).toNat = y2 + h - 1 by omega]
              at heqy
            exact heqy)
  exact hparx true hy12

theorem hex_mapTiles (g : Grid) (f : Grid → Nat → Nat → Hex) (x y : Nat)
    (hx : x < g.width) (hy : y < g.height) :
    hex (mapTiles g f) x y = f g x y := by
  unfold hex mapTiles
  dsimp only
  have hlt : x + y * g.width <
      ((List.range (g.width * g.height)).map
        (fun j => f g (j % g.width) (j / g.width))).length := by
    simp [hexIdx_lt g.width g.height x y hx hy]
  rw [List.getD_eq_getElem _ default hlt, List.getElem_map, List.getElem_range]
  have h1 : (x + y * g.width) % g.width = x := by
    simp [Nat.add_mul_mod_self_right, Nat.mod_eq_of_lt hx]
  have h2 : (x + y * g.width) / g.width = y := by
    rw [Nat.add_mul_div_right _ _ (by omega : 0 < g.width),
      Nat.div_eq_of_lt hx, Nat.zero_add]
  rw [h1, h2]

/-! ## The apply step cannot panic when every recorded source is occupied,
and it keeps every cell off the processed tile and off its movement source
occupied. -/

theorem applyStep_isSome {R : Type} (E : Ext R) (g : Grid) (rng : R)
    (x y : Nat) (hx : x < g.width) (hy : y < g.height)
    (hlen : g.tiles.length = g.width * g.height)
    (hmov : ∀ s ∈ (hex g x y).delta.movement_attempts,
      ((hex g s.1 s.2).cell).isSome = true)
    (hmate : ∀ m ∈ (hex g x y).delta.mate_attempts,
      ((hex g m.source.1 m.source.2).cell).isSome = true) :
    (applyStep E g rng x y).isSome = true := by
  unfold applyStep applyStepAction
  dsimp only
  by_cases h1 : (hex g x y).delta.movement_attempts.length = 1
  · rw [if_pos h1]
    have hsmem : (hex g x y).delta.movement_attempts.getD 0 (0, 0) ∈
        (hex g x y).delta.movement_attempts := by
      cases hl : (hex g x y).delta.movement_attempts with
      | nil => rw [hl] at h1; simp at h1
      | cons a l => simp [List.getD]
    have hsome := hmov _ hsmem
    rw [Option.isSome_iff_exists] at hsome
    obtain ⟨c, hc⟩ := hsome
    rw [hc]
    have htar : (hex (setCell (setCell g
        ((hex g x y).delta.movement_attempts.getD 0 (0, 0)).1
        ((hex g x y).delta.movement_attempts.getD 0 (0, 0)).2 none)
        x y (some c)) x y).cell = some c := by
      rw [hex_setCell_cell]
      rw [if_pos ⟨rfl, by simp [hlen]; exact hexIdx_lt _ _ _ _ hx hy⟩]
    rw [htar]
    dsimp only
    by_cases hP : c.inhale ≥ g.movement_cost
    · rw [if_pos hP]
      simp
    · rw [if_neg hP]
      simp
  · rw [if_neg h1]
    by_cases h2 : (hex g x y).delta.mate_attempts.length = 1
    · rw [if_pos h2]
      have hmmem : (hex g x y).delta.mate_attempts.getD 0
          { mate := (0, 0), source := (0, 0) } ∈
          (hex g x y).delta.mate_attempts := by
        cases hl : (hex g x y).delta.mate_attempts with
        | nil => rw [hl] at h2; simp at h2
        | cons a l => simp [List.getD]
      have hsome := hmate _ hmmem
      rw [Option.isSome_iff_exists] at hsome
      obtain ⟨sc, hsc⟩ := hsome
      set m := (hex g x y).delta.mate_attempts.getD 0
        { mate := (0, 0), source := (0, 0) } with hm
      by_cases hmm : m.mate = (x, y)
      · rw [if_pos hmm, hsc]
        simp
      · rw [if_neg hmm]
        by_cases hocc : ((hex g m.mate.1 m.mate.2).cell).isSome = true
        · rw [if_pos hocc, hsc]
          dsimp only
          have hmc2 : ((hex (setCell g m.source.1 m.source.2
              (some (if sc.inhale ≥ g.movement_cost + g.divide_cost then
                { sc with inhale := sc.inhale - (g.movement_cost + g.divide_cost) }
               else { sc with inhale := 0 }))) m.mate.1 m.mate.2).cell).isSome
              = true := by
            rw [hex_setCell_cell]
            split_ifs <;> simp [hocc]
          rw [Option.isSome_iff_exists] at hmc2
          obtain ⟨mc, hmc⟩ := hmc2
          rw [hmc]
          simp
        · rw [if_neg hocc]
          simp
    · rw [if_neg h2]
      simp

theorem applyStepAction_delta {R : Type} (E : Ext R) (g : Grid) (rng : R)
    (x y : Nat) (gr : Grid × R) (h : applyStepAction E g rng x y = some gr)
    (a b : Nat) : (hex gr.1 a b).delta = (hex g a b).delta := by
  unfold applyStepAction at h
  dsimp only at h
  repeat' split at h
  all_goals first
    | (rw [Option.some.injEq] at h
       subst h
       simp [hex_setCell_delta])
    | exact absurd h (by simp)

theorem applyStep_delta {R : Type} (E : Ext R) (g : Grid) (rng : R)
    (x y : Nat) (gr : Grid × R) (h : applyStep E g rng x y = some gr)
    (a b : Nat) : (hex gr.1 a b).delta = (hex g a b).delta := by
  unfold applyStep at h
  cases happ : applyStepAction E g rng x y with
  | none =>
    rw [happ] at h
    exact absurd h (by simp)
  | some gr2 =>
    rw [happ] at h
    dsimp only at h
    rw [Option.some.injEq] at h
    subst h
    dsimp only
    rw [hex_setDecision_delta]
    exact applyStepAction_delta E g rng x y gr2 happ a b

theorem applyStepAction_keeps_some {R : Type} (E : Ext R) (g : Grid)
    (rng : R) (x y : Nat) (gr : Grid × R)
    (h : applyStepAction E g rng x y = some gr)
    (a b : Nat) (hsome : ((hex g a b).cell).isSome = true)
    (hq : (hex g x y).delta.mate_attempts.length = 1 →
      a + b * g.width ≠ x + y * g.width)
    (hsrc : (hex g x y).delta.movement_attempts.length = 1 →
      a + b * g.width ≠
        ((hex g x y).delta.movement_attempts.getD 0 (0, 0)).1 +
          ((hex g x y).delta.movement_attempts.getD 0 (0, 0)).2 * g.width) :
    ((hex gr.1 a b).cell).isSome = true := by
  unfold applyStepAction at h
  dsimp only at h
  by_cases h1 : (hex g x y).delta.movement_attempts.length = 1
  · rw [if_pos h1] at h
    have hsrcne := hsrc h1
    have hne2 : ¬(((hex g x y).delta.movement_attempts.getD 0 (0, 0)).1 +
          ((hex g x y).delta.movement_attempts.getD 0 (0, 0)).2 * g.width =
            a + b * g.width ∧
        ((hex g x y).delta.movement_attempts.getD 0 (0, 0)).1 +
          ((hex g x y).delta.movement_attempts.getD 0 (0, 0)).2 * g.width <
            g.tiles.length) :=
      fun hcon => hsrcne hcon.1.symm
    split at h
    · exact absurd h (by simp)
    · split at h <;>
        (rw [Option.some.injEq] at h
         subst h
         simp only [hex_setCell_cell, setCell_width, setCell_tiles_length]
         by_cases hcx : x + y * g.width = a + b * g.width ∧
           x + y * g.width < g.tiles.length
         · rw [if_pos hcx]
           simp
         · rw [if_neg hcx, if_neg hcx, if_neg hne2]
           exact hsome)
  · rw [if_neg h1] at h
    by_cases h2 : (hex g x y).delta.mate_attempts.length = 1
    · rw [if_pos h2] at h
      set M := (hex g x y).delta.mate_attempts.getD 0
        { mate := (0, 0), source := (0, 0) } with hM
      by_cases hmm : M.mate = (x, y)
      · rw [if_pos hmm] at h
        split at h
        · exact absurd h (by simp)
        · rw [Option.some.injEq] at h
          subst h
          simp only [hex_setDecision_cell, hex_setCell_cell, setCell_width,
            setCell_tiles_length]
          split_ifs <;> first | simp | exact hsome
      · rw [if_neg hmm] at h
        by_cases hocc : ((hex g M.mate.1 M.mate.2).cell).isSome = true
        · rw [if_pos hocc] at h
          split at h
          · exact absurd h (by simp)
          · split at h
            · exact absurd h (by simp)
            · rw [Option.some.injEq] at h
              subst h
              simp only [hex_setDecision_cell, hex_setCell_cell, setCell_width,
                setCell_tiles_length]
              split_ifs <;> first | simp | exact hsome
        · rw [if_neg hocc] at h
          rw [Option.some.injEq] at h
          subst h
          simp only [hex_setDecision_cell, hex_setCell_cell, setCell_width,
            setCell_tiles_length]
          split_ifs with hc
          · exact absurd hc.1 (fun he => hq h2 he.symm)
          · exact hsome
    · rw [if_neg h2] at h
      rw [Option.some.injEq] at h
      subst h
      exact hsome

theorem getD_mem_of_length_one {α : Type} (l : List α) (d : α)
    (h : l.length = 1) : l.getD 0 d ∈ l := by
  cases l with
  | nil => simp at h
  | cons a t => simp [List.getD]

theorem neighborCoord_lt (w h x y : Nat) (hx : x < w) (hy : y < h)
    (i : Fin 6) :
    (neighborCoord w h x y i).1 < w ∧ (neighborCoord w h x y i).2 < h := by
  have hw : 0 < w := by omega
  have hh : 0 < h := by omega
  rcases i with ⟨iv, hiv⟩
  unfold neighborCoord
  by_cases hy2 : y % 2 = 0
  · rw [if_pos hy2]
    interval_cases iv <;>
      exact ⟨by first | exact hx | exact Nat.mod_lt _ hw,
             by first | exact hy | exact Nat.mod_lt _ hh⟩
  · rw [if_neg hy2]
    interval_cases iv <;>
      exact ⟨by first | exact hx | exact Nat.mod_lt _ hw,
             by first | exact hy | exact Nat.mod_lt _ hh⟩

theorem mapTiles_width (g : Grid) (f : Grid → Nat → Nat → Hex) :
    (mapTiles g f).width = g.width := rfl

theorem mapTiles_height (g : Grid) (f : Grid → Nat → Nat → Hex) :
    (mapTiles g f).height = g.height := rfl

theorem mapTiles_len (g : Grid) (f : Grid → Nat → Nat → Hex) :
    (mapTiles g f).tiles.length = g.width * g.height := by
  simp [mapTiles]

theorem gather_src_facts {R : Type} (E : Ext R) (g1 : Grid)
    (hinv : ∀ x y, x < g1.width → y < g1.height →
      ((hex g1 x y).decision).isSome = true →
      ((hex g1 x y).cell).isSome = true)
    (x y : Nat) (hx : x < g1.width) (hy : y < g1.height) (s : Nat × Nat)
    (hs : s ∈ (gatherTile E g1 x y).delta.movement_attempts) :
    s.1 < g1.width ∧ s.2 < g1.height ∧
      ((hex g1 s.1 s.2).cell).isSome = true := by
  obtain ⟨hc, i, cf, hdec, hseq⟩ := gatherTile_mov_char E g1 x y s hs
  rw [in_direction_eq_neighborCoord g1.width g1.height x y hx hy i] at hseq
  have hrange := neighborCoord_lt g1.width g1.height x y hx hy i
  subst hseq
  exact ⟨hrange.1, hrange.2,
    hinv _ _ hrange.1 hrange.2 (by rw [hdec]; rfl)⟩

theorem gather_mate_src_facts {R : Type} (E : Ext R) (g1 : Grid)
    (hinv : ∀ x y, x < g1.width → y < g1.height →
      ((hex g1 x y).decision).isSome = true →
      ((hex g1 x y).cell).isSome = true)
    (x y : Nat) (hx : x < g1.width) (hy : y < g1.height) (m : Mate)
    (hs : m ∈ (gatherTile E g1 x y).delta.mate_attempts) :
    m.source.1 < g1.width ∧ m.source.2 < g1.height ∧
      ((hex g1 m.source.1 m.source.2).cell).isSome = true := by
  obtain ⟨hc, i, md, cf, hdec, hseq, hmeq⟩ :=
    gatherTile_mate_char E g1 x y m hs
  rw [in_direction_eq_neighborCoord g1.width g1.height x y hx hy i] at hseq
  have hrange := neighborCoord_lt g1.width g1.height x y hx hy i
  rw [hseq]
  exact ⟨hrange.1, hrange.2,
    hinv _ _ hrange.1 hrange.2 (by rw [hdec]; rfl)⟩

theorem mov_src_distinct {R : Type} (E : Ext R) (g1 : Grid)
    (px py qx qy : Nat) (hpx : px < g1.width) (hpy : py < g1.height)
    (hqx : qx < g1.width) (hqy : qy < g1.height)
    (hne : ¬(qx = px ∧ qy = py))
    (F : Nat × Nat)
    (hF : F ∈ (gatherTile E g1 px py).delta.movement_attempts)
    (s : Nat × Nat)
    (hs : s ∈ (gatherTile E g1 qx qy).delta.movement_attempts) :
    s ≠ F := by
  obtain ⟨hcp, ip, cfp, hdecp, hFeq⟩ := gatherTile_mov_char E g1 px py F hF
  obtain ⟨hcq, iq, cfq, hdecq, hseq⟩ := gatherTile_mov_char E g1 qx qy s hs
  intro hcontra
  have hNN : in_direction qx qy g1.width g1.height ((facingAt iq).flip)
      = in_direction px py g1.width g1.height ((facingAt ip).flip) := by
    rw [← hseq, ← hFeq]
    exact hcontra
  have hNN2 : neighborCoord g1.width g1.height qx qy iq
      = neighborCoord g1.width g1.height px py ip := by
    rw [← in_direction_eq_neighborCoord g1.width g1.height qx qy hqx hqy iq,
      ← in_direction_eq_neighborCoord g1.width g1.height px py hpx hpy ip]
    exact hNN
  rw [hNN2, hdecp] at hdecq
  have h1 := Option.some.inj hdecq
  have h2 : Choice.Move (facingAt ip) = Choice.Move (facingAt iq) :=
    congrArg Decision.choice h1
  have hdd : facingAt ip = facingAt iq := by
    injection h2
  have hii : ip = iq := facingAt_inj ip iq hdd
  subst hii
  obtain ⟨hxe, hye⟩ := in_direction_inj g1.width g1.height _ qx qy px py
    hqx hqy hpx hpy hNN
  exact hne ⟨hxe, hye⟩

theorem mate_src_distinct {R : Type} (E : Ext R) (g1 : Grid)
    (px py qx qy : Nat) (hpx : px < g1.width) (hpy : py < g1.height)
    (hqx : qx < g1.width) (hqy : qy < g1.height)
    (F : Nat × Nat)
    (hF : F ∈ (gatherTile E g1 px py).delta.movement_attempts)
    (m : Mate)
    (hs : m ∈ (gatherTile E g1 qx qy).delta.mate_attempts) :
    m.source ≠ F := by
  obtain ⟨hcp, ip, cfp, hdecp, hFeq⟩ := gatherTile_mov_char E g1 px py F hF
  obtain ⟨hcq, iq, md, cfq, hdecq, hseq, hmeq⟩ :=
    gatherTile_mate_char E g1 qx qy m hs
  intro hcontra
  have hNN2 : neighborCoord g1.width g1.height qx qy iq
      = neighborCoord g1.width g1.height px py ip := by
    rw [← in_direction_eq_neighborCoord g1.width g1.height qx qy hqx hqy iq,
      ← in_direction_eq_neighborCoord g1.width g1.height px py hpx hpy ip,
      ← hseq, ← hFeq]
    exact hcontra
  rw [hNN2, hdecp] at hdecq
  have h1 := Option.some.inj hdecq
  have h2 : Choice.Move (facingAt ip) = Choice.Divide md (facingAt iq) :=
    congrArg Decision.choice h1
  exact Choice.noConfusion h2

theorem applyStep_keeps_some {R : Type} (E : Ext R) (g : Grid) (rng : R)
    (x y : Nat) (gr : Grid × R) (h : applyStep E g rng x y = some gr)
    (a b : Nat) (hsome : ((hex g a b).cell).isSome = true)
    (hq : (hex g x y).delta.mate_attempts.length = 1 →
      a + b * g.width ≠ x + y * g.width)
    (hsrc : (hex g x y).delta.movement_attempts.length = 1 →
      a + b * g.width ≠
        ((hex g x y).delta.movement_attempts.getD 0 (0, 0)).1 +
          ((hex g x y).delta.movement_attempts.getD 0 (0, 0)).2 * g.width) :
    ((hex gr.1 a b).cell).isSome = true := by
  unfold applyStep at h
  cases happ : applyStepAction E g rng x y with
  | none =>
    rw [happ] at h
    exact absurd h (by simp)
  | some gr2 =>
    rw [happ] at h
    dsimp only at h
    rw [Option.some.injEq] at h
    subst h
    dsimp only
    rw [hex_setDecision_cell]
    exact applyStepAction_keeps_some E g rng x y gr2 happ a b hsome hq hsrc

theorem applyFold_isSome {R : Type} (E : Ext R) (g1 : Grid)
    (hinv : ∀ x y, x < g1.width → y < g1.height →
      ((hex g1 x y).decision).isSome = true →
      ((hex g1 x y).cell).isSome = true) :
    ∀ l : List (Nat × Nat), l.Nodup →
      (∀ p ∈ l, p.1 < g1.width ∧ p.2 < g1.height) →
      ∀ (g : Grid) (rng : R),
        g.width = g1.width → g.height = g1.height →
        g.tiles.length = g1.width * g1.height →
        (∀ a b, a < g1.width → b < g1.height →
          (hex g a b).delta = (gatherTile E g1 a b).delta) →
        (∀ p ∈ l, ∀ s ∈ (gatherTile E g1 p.1 p.2).delta.movement_attempts,
          ((hex g s.1 s.2).cell).isSome = true) →
        (∀ p ∈ l, ∀ m ∈ (gatherTile E g1 p.1 p.2).delta.mate_attempts,
          ((hex g m.source.1 m.source.2).cell).isSome = true) →
        (l.foldl (fun acc p => match acc with
          | none => none
          | some gr => applyStep E gr.1 gr.2 p.1 p.2) (some (g, rng))).isSome
          = true := by
  intro l
  induction l with
  | nil =>
    intro _ _ g rng _ _ _ _ _ _
    simp
  | cons p l ih =>
    intro hnd hrange g rng hgw hgh hglen hdelta hmov hmate
    have hpx : p.1 < g1.width := (hrange p (List.mem_cons_self p l)).1
    have hpy : p.2 < g1.height := (hrange p (List.mem_cons_self p l)).2
    have hdp : (hex g p.1 p.2).delta = (gatherTile E g1 p.1 p.2).delta :=
      hdelta p.1 p.2 hpx hpy
    have hstep : (applyStep E g rng p.1 p.2).isSome = true := by
      apply applyStep_isSome E g rng p.1 p.2 (by rw [hgw]; exact hpx)
        (by rw [hgh]; exact hpy) (by rw [hgw, hgh]; exact hglen)
      · intro s hs
        rw [hdp] at hs
        exact hmov p (List.mem_cons_self p l) s hs
      · intro m hm
        rw [hdp] at hm
        exact hmate p (List.mem_cons_self p l) m hm
    rw [Option.isSome_iff_exists] at hstep
    obtain ⟨gr, hgr⟩ := hstep
    simp only [List.foldl_cons]
    rw [hgr]
    have hpres := applyStep_preserves E g rng p.1 p.2 gr hgr
    have hdel := applyStep_delta E g rng p.1 p.2 gr hgr
    apply ih (List.Nodup.of_cons hnd)
      (fun q hq => hrange q (List.mem_cons_of_mem p hq))
      gr.1 gr.2 (hpres.1.trans hgw) (hpres.2.1.trans hgh)
      (hpres.2.2.trans hglen)
      (fun a b ha hb => (hdel a b).trans (hdelta a b ha hb))
    · intro q hq s hs
      have hqx : q.1 < g1.width := (hrange q (List.mem_cons_of_mem p hq)).1
      have hqy : q.2 < g1.height := (hrange q (List.mem_cons_of_mem p hq)).2
      have hsf := gather_src_facts E g1 hinv q.1 q.2 hqx hqy s hs
      apply applyStep_keeps_some E g rng p.1 p.2 gr hgr s.1 s.2
        (hmov q (List.mem_cons_of_mem p hq) s hs)
      · intro hml
        rw [hdp] at hml
        have hM := getD_mem_of_length_one _
          { mate := (0, 0), source := (0, 0) } hml
        obtain ⟨hpc, -⟩ := gatherTile_mate_char E g1 p.1 p.2 _ hM
        intro hidx
        rw [hgw] at hidx
        obtain ⟨he1, he2⟩ := hexIdx_inj g1.width s.1 s.2 p.1 p.2
          hsf.1 hpx hidx
        have hs2 : ((hex g1 p.1 p.2).cell).isSome = true := by
          rw [← he1, ← he2]
          exact hsf.2.2
        rw [hpc] at hs2
        simp at hs2
      · intro hml1
        rw [hdp] at hml1
        rw [hdp]
        have hFmem := getD_mem_of_length_one _ (0, 0) hml1
        have hFf := gather_src_facts E g1 hinv p.1 p.2 hpx hpy _ hFmem
        have hne : ¬(q.1 = p.1 ∧ q.2 = p.2) := by
          intro hcon
          have hpq : p = q := Prod.ext hcon.1.symm hcon.2.symm
          exact (List.nodup_cons.mp hnd).1 (hpq ▸ hq)
        have hsd := mov_src_distinct E g1 p.1 p.2 q.1 q.2 hpx hpy hqx hqy
          hne _ hFmem s hs
        intro hidx
        rw [hgw] at hidx
        obtain ⟨he1, he2⟩ := hexIdx_inj g1.width s.1 s.2 _ _
          hsf.1 hFf.1 hidx
        exact hsd (Prod.ext he1 he2)
    · intro q hq m hm
      have hqx : q.1 < g1.width := (hrange q (List.mem_cons_of_mem p hq)).1
      have hqy : q.2 < g1.height := (hrange q (List.mem_cons_of_mem p hq)).2
      have hsf := gather_mate_src_facts E g1 hinv q.1 q.2 hqx hqy m hm
      apply applyStep_keeps_some E g rng p.1 p.2 gr hgr m.source.1 m.source.2
        (hmate q (List.mem_cons_of_mem p hq) m hm)
      · intro hml
        rw [hdp] at hml
        have hM := getD_mem_of_length_one _
          { mate := (0, 0), source := (0, 0) } hml
        obtain ⟨hpc, -⟩ := gatherTile_mate_char E g1 p.1 p.2 _ hM
        intro hidx
        rw [hgw] at hidx
        obtain ⟨he1, he2⟩ := hexIdx_inj g1.width m.source.1 m.source.2 p.1 p.2
          hsf.1 hpx hidx
        have hs2 : ((hex g1 p.1 p.2).cell).isSome = true := by
          rw [← he1, ← he2]
          exact hsf.2.2
        rw [hpc] at hs2
        simp at hs2
      · intro hml1
        rw [hdp] at hml1
        rw [hdp]
        have hFmem := getD_mem_of_length_one _ (0, 0) hml1
        have hFf := gather_src_facts E g1 hinv p.1 p.2 hpx hpy _ hFmem
        have hsd := mate_src_distinct E g1 p.1 p.2 q.1 q.2 hpx hpy hqx hqy
          _ hFmem m hm
        intro hidx
        rw [hgw] at hidx
        obtain ⟨he1, he2⟩ := hexIdx_inj g1.width m.source.1 m.source.2 _ _
          hsf.1 hFf.1 hidx
        exact hsd (Prod.ext he1 he2)

theorem cycle_decisions_isSome_of_inv {R : Type} (n : Nat) (E : Ext R)
    (g1 : Grid) (rng : R) (hn : 1 ≤ n)
    (hlen : g1.tiles.length = g1.width * g1.height)
    (hinv : ∀ x y, x < g1.width → y < g1.height →
      ((hex g1 x y).decision).isSome = true →
      ((hex g1 x y).cell).isSome = true) :
    (cycle_decisions n E g1 rng).isSome = true := by
  unfold cycle_decisions gatherPhase applyPass
  rw [runShards_eq n g1 (gatherTile E) hn hlen]
  rw [mapTiles_width, mapTiles_height]
  apply applyFold_isSome E g1 hinv (applyOrder g1.width g1.height)
    (applyOrder_nodup g1.width g1.height)
    (fun p hp => (applyOrder_mem g1.width g1.height p.1 p.2).mp hp)
    (mapTiles g1 (gatherTile E)) rng rfl rfl (mapTiles_len g1 (gatherTile E))
  · intro a b ha hb
    rw [hex_mapTiles g1 (gatherTile E) a b ha hb]
  · intro p hp s hs
    have hp2 := (applyOrder_mem g1.width g1.height p.1 p.2).mp hp
    have hsf := gather_src_facts E g1 hinv p.1 p.2 hp2.1 hp2.2 s hs
    rw [hex_mapTiles g1 (gatherTile E) s.1 s.2 hsf.1 hsf.2.1, gatherTile_cell]
    exact hsf.2.2
  · intro p hp m hm
    have hp2 := (applyOrder_mem g1.width g1.height p.1 p.2).mp hp
    have hsf := gather_mate_src_facts E g1 hinv p.1 p.2 hp2.1 hp2.2 m hm
    rw [hex_mapTiles g1 (gatherTile E) m.source.1 m.source.2 hsf.1 hsf.2.1,
      gatherTile_cell]
    exact hsf.2.2

theorem decideTile_inv {R : Type} (E : Ext R) (g : Grid) (x y : Nat) :
    ((decideTile E g x y).decision).isSome = true →
      ((decideTile E g x y).cell).isSome = true := by
  unfold decideTile
  cases hc : (hex g x y).cell <;> simp [hc]

/-- C10: in the sequential apply pass of Delta Resolution run on any
post-decide grid (the decision phase puts decisions only on occupied
tiles), every tile processed with exactly one recorded movement attempt
still has its source occupied, and every tile with exactly one mate
attempt has its source occupied; hence every occupant extraction of the
apply pass is on a present organism and `cycle_decisions` never returns
the panic marker `none`. -/
theorem C10_apply_no_panic {R : Type} (n : Nat) (E : Ext R) (g0 : Grid)
    (rng : R) (hn : 1 ≤ n)
    (hlen : g0.tiles.length = g0.width * g0.height) :
    (cycle_decisions n E (cycle_cells n E g0) rng).isSome = true := by
  have hg1 : cycle_cells n E g0 = mapTiles g0 (decideTile E) := by
    unfold cycle_cells
    exact runShards_eq n g0 (decideTile E) hn hlen
  apply cycle_decisions_isSome_of_inv n E _ rng hn
  · rw [hg1, mapTiles_len, mapTiles_width, mapTiles_height]
  · intro x y hx hy hdec
    rw [hg1] at hx hy hdec ⊢
    rw [mapTiles_width] at hx
    rw [mapTiles_height] at hy
    rw [hex_mapTiles g0 (decideTile E) x y hx hy] at hdec ⊢
    exact decideTile_inv E g0 x y hdec

/-- Witness for C10: on the concrete 2×2 fixture grid with one occupied
tile, a full decide-then-resolve round returns `some`. -/
theorem C10_apply_no_panic_witness :
    (cycle_decisions 1 unitExt (cycle_cells 1 unitExt gC10) ()).isSome
      = true :=
  C10_apply_no_panic 1 unitExt gC10 () (by decide) (by decide)

end Evomata
